import Mathlib

set_option linter.unusedVariables false

set_option linter.unnecessarySeqFocus false

deriving instance DecidableEq for Except

/-!
Verification of the MetNoPy query-chunking and XML-to-table pipeline
(`src/metnopy/core.py` and `src/metnopy/api.py`) against its specification.

The Python code is shallowly embedded: XML elements become a tree structure,
pandas data frames become explicit column/row records, Python exceptions
become an error type threaded through `Except`, and the HTTP transport is a
`Fetcher` parameter (one call per calendar-year chunk, mirroring
`get_xml_obs`).
-/

/-- Naive Python `datetime.datetime` value (no timezone attached). -/
structure PyDateTime where
  year : Nat
  month : Nat
  day : Nat
  hour : Nat
  minute : Nat
  second : Nat
  usec : Nat
deriving DecidableEq, Repr

/-- Exceptions that can escape the metnopy functions: the four classes defined
in `core.py` plus the builtin Python exceptions the code can raise uncaught. -/
inductive PyError where
  | typeError
  | valueError
  | indexError
  | keyError
  | xmlParsingError (msg : String)
  | invalidQueryException (msg : Option String)
  | unknownXMLTagException (tag : String)
  | metAPIStatusCodeException (code : Nat)
deriving DecidableEq, Repr

/-- An `xml.etree.ElementTree.Element`: tag, attributes, text, children. -/
structure XmlElem where
  tag : String
  attrs : List (String × String)
  text : Option String
  children : List XmlElem

/-- `Element.get(key)`: look up an attribute, `None` when absent. -/
def XmlElem.get (e : XmlElem) (k : String) : Option String :=
  (e.attrs.find? (fun p => p.1 == k)).map (fun p => p.2)

/-- A Python float arising from parsing a decimal literal, kept as the exact
decimal `mantissa / 10 ^ scale`. The pipeline never computes with floats, so
this unnormalized representation is adequate. -/
structure PyFloat where
  mantissa : Int
  scale : Nat
deriving DecidableEq, Repr

/-- Values that can sit in a pandas cell in this pipeline: the `Date` datetime,
`np.nan`, raw strings from the XML, Python `None` (empty XML text), and the
numbers produced by type coercion. -/
inductive WVal where
  | dval (d : PyDateTime)
  | nanV
  | strV (s : String)
  | noneV
  | floatV (q : PyFloat)
  | intV (n : Int)
deriving DecidableEq, Repr

/-- A Python dict with the key/value types used by `xml_obs_to_dict` in wide
form. Keys are `Option String` because `el.get("id")` can be `None` and `None`
is a legal dict key. Insertion order is kept, as in Python dicts. -/
abbrev PyDict := List (Option String × WVal)

/-- Python dict assignment `d[k] = v`: overwrite in place if the key exists
(keeping its position; keys are unique, so replacing the first occurrence is
dict assignment), otherwise append at the end. -/
def pyInsert (d : PyDict) (k : Option String) (v : WVal) : PyDict :=
  match d with
  | [] => [(k, v)]
  | p :: rest => if p.1 == k then (k, v) :: rest else p :: pyInsert rest k v

/-- Python dict lookup `d.get(k)`. -/
def pyGet (d : PyDict) (k : Option String) : Option WVal :=
  (d.find? (fun p => p.1 == k)).map (fun p => p.2)

/-- A pytz timezone: the `pytz.UTC` identity test used by `xml_obs_to_dict`
plus the zone-conversion function (`astimezone` composed with dropping the
tzinfo), which is pytz/datetime library behaviour and therefore a parameter. -/
structure PyTz where
  isUTC : Bool
  localize : PyDateTime → PyDateTime

/-- The UTC timezone object: `xml_obs_to_dict` leaves dates untouched for it. -/
def pytzUTC : PyTz := { isUTC := true, localize := fun d => d }

/-- Map a fallible function over a list, stopping at the first exception
(Python list comprehension / `map` semantics under exceptions). -/
def mapExcept {α β : Type} (f : α → Except PyError β) : List α → Except PyError (List β)
  | [] => .ok []
  | a :: as => do
      let b ← f a
      let bs ← mapExcept f as
      .ok (b :: bs)

/-- Split a character list at every occurrence of `sep` (Python
`str.split(sep)` for a one-character separator). -/
def splitChar (sep : Char) : List Char → List (List Char)
  | [] => [[]]
  | c :: cs =>
      let r := splitChar sep cs
      if c = sep then [] :: r
      else match r with
           | [] => [[c]]
           | g :: gs => (c :: g) :: gs

/-- Python `s.split(sep)` for a one-character separator. -/
def pySplit (s : String) (sep : Char) : List String :=
  (splitChar sep s.data).map (fun cs => ⟨cs⟩)

/-! ## Response fetcher: `get_xml_obs` (core.py lines 42-111)

The HTTP request and `ElementTree.fromstring` are external capabilities; the
model starts from the parsed XML tree of a 200-status response. -/

/-- Dispatch on the envelope's inner element (`core.py` lines 97-111).
Mirrors the source exactly: when the tag is not `Metdata`, the code reads
`xml_data[0].text` *before* inspecting the tag, so a childless element raises
an uncaught `IndexError` whatever its tag is. -/
def processXmlData (xml_data : XmlElem) : Except PyError (List XmlElem) :=
  if xml_data.tag ≠ "Metdata" then
    match xml_data.children.head? with
    | none => .error .indexError
    | some first =>
      let text := first.text
      if xml_data.tag = "Error" then
        if text = some "No data found" then .ok []
        else .error (.invalidQueryException text)
      else .error (.unknownXMLTagException xml_data.tag)
  else .ok xml_data.children

/-- The post-parse part of `get_xml_obs`: descend `xml_tree[0][0][0][0]`
(an `IndexError` is caught and re-raised as `XMLParsingError`), then dispatch
on the inner element. -/
def get_xml_obs (xml_tree : XmlElem) : Except PyError (List XmlElem) :=
  match (xml_tree.children.head?.bind fun a =>
          a.children.head?.bind fun b =>
            b.children.head?.bind fun c => c.children.head?) with
  | none => .error (.xmlParsingError "Unknown structure on XML response.")
  | some xml_data => processXmlData xml_data

/-! ## Timestamp parsing: `datetime.strptime(s, "%Y-%m-%dT%H:%M:%S.%fZ")` -/

/-- Parse a nonempty all-digit character group of length at most `maxLen` (the
field widths accepted by the fixed strptime format). -/
def parseDigits (cs : List Char) (maxLen : Nat) : Option Nat :=
  if 1 ≤ cs.length ∧ cs.length ≤ maxLen ∧ cs.all Char.isDigit then
    some (cs.foldl (fun n c => n * 10 + (c.toNat - 48)) 0)
  else none

/-- Gregorian leap-year test, as validated by `datetime`. -/
def isLeapYear (y : Nat) : Bool :=
  (y % 4 == 0 && y % 100 != 0) || y % 400 == 0

/-- Days in a month, as validated by `datetime`. -/
def daysInMonth (y m : Nat) : Nat :=
  if m = 2 then (if isLeapYear y then 29 else 28)
  else if m = 4 ∨ m = 6 ∨ m = 9 ∨ m = 11 then 30
  else 31

/-- Model of `datetime.strptime(s, "%Y-%m-%dT%H:%M:%S.%fZ")`: `none` means the
string does not match the format and Python raises `ValueError`. -/
def strptimeMet (s : String) : Option PyDateTime :=
  match splitChar 'T' s.data with
  | [datePart, timePart] =>
    match splitChar '-' datePart with
    | [ys, ms, ds] =>
      match splitChar ':' timePart with
      | [hs, mins, rest] =>
        match splitChar '.' rest with
        | [ss, fracZ] =>
          if fracZ.getLast? = some 'Z' then
            let frac := fracZ.dropLast
            match parseDigits ys 4, parseDigits ms 2, parseDigits ds 2,
                  parseDigits hs 2, parseDigits mins 2, parseDigits ss 2,
                  parseDigits frac 6 with
            | some y, some mo, some da, some h, some mi, some se, some f =>
              if 1 ≤ mo ∧ mo ≤ 12 ∧ 1 ≤ da ∧ da ≤ daysInMonth y mo ∧
                 h ≤ 23 ∧ mi ≤ 59 ∧ se ≤ 59 then
                some ⟨y, mo, da, h, mi, se, f * 10 ^ (6 - frac.length)⟩
              else none
            | _, _, _, _, _, _, _ => none
          else none
        | _ => none
      | _ => none
    | _ => none
  | _ => none

/-! ## XML observation parser: `xml_obs_to_dict` (core.py lines 114-176) -/

/-- One long-format record appended by the long branch. `stno` and `varId` are
`location.get("id")` and `el.get("id")` as returned (possibly `None`); `value`
is `el[0].text` (possibly `None`). -/
structure LongRow where
  date : PyDateTime
  stno : Option String
  varId : Option String
  value : Option String
deriving DecidableEq, Repr

/-- Wide branch, key for one weather element (`el_code`, possibly suffixed with
`_<location id>`). Concatenating `None` with a string raises `TypeError`. -/
def wideKey (multiple : Bool) (loc el : XmlElem) : Except PyError (Option String) :=
  match el.get "id" with
  | none => if multiple then .error .typeError else .ok none
  | some code =>
      if multiple then
        match loc.get "id" with
        | none => .error .typeError
        | some locId => .ok (some (code ++ "_" ++ locId))
      else .ok (some code)

/-- Wide branch, value stored for one weather element: `el[0].text`, with the
`-99999` sentinel replaced by `np.nan`. `el[0]` raises `IndexError` when the
element has no children. -/
def elValue (el : XmlElem) : Except PyError WVal :=
  match el.children.head? with
  | none => .error .indexError
  | some c =>
      if c.text = some "-99999" then .ok .nanV
      else match c.text with
           | some s => .ok (.strV s)
           | none => .ok .noneV

/-- Wide branch, inner loop over one location's weather elements. -/
def processEls (multiple : Bool) (loc : XmlElem) : PyDict → List XmlElem → Except PyError PyDict
  | d, [] => .ok d
  | d, el :: rest => do
      let key ← wideKey multiple loc el
      let v ← elValue el
      processEls multiple loc (pyInsert d key v) rest

/-- Wide branch, outer loop over locations: sets `observation_dict["Date"]`
then adds the location's elements, accumulating into one shared dict. -/
def processLocs (multiple : Bool) (date : PyDateTime) : PyDict → List XmlElem → Except PyError PyDict
  | d, [] => .ok d
  | d, loc :: rest => do
      let d1 := pyInsert d (some "Date") (.dval date)
      let d2 ← processEls multiple loc d1 loc.children
      processLocs multiple date d2 rest

/-- Long branch, inner loop: one record per non-sentinel element; elements
whose `el[0].text` equals `"-99999"` are skipped. -/
def longEls (date : PyDateTime) (loc : XmlElem) : List LongRow → List XmlElem → Except PyError (List LongRow)
  | acc, [] => .ok acc
  | acc, el :: rest =>
      match el.children.head? with
      | none => .error .indexError
      | some c =>
          if c.text ≠ some "-99999" then
            longEls date loc (acc ++ [⟨date, loc.get "id", el.get "id", c.text⟩]) rest
          else longEls date loc acc rest

/-- Long branch, outer loop over locations. The source re-initializes
`observation_dict` at the top of each location iteration, so the result is the
last location's records only (`none` when the fragment has no locations and
the initial empty dict survives). -/
def longLocs (date : PyDateTime) : Option (List LongRow) → List XmlElem → Except PyError (Option (List LongRow))
  | res, [] => .ok res
  | _res, loc :: rest => do
      let rows ← longEls date loc [] loc.children
      longLocs date (some rows) rest

/-- Result of `xml_obs_to_dict`: a wide-form dict or the long-form record
lists. -/
inductive ObsDict where
  | wideD (d : PyDict)
  | longD (rows : Option (List LongRow))
deriving DecidableEq, Repr

/-- `xml_obs_to_dict` (core.py lines 114-176). A missing `from` attribute makes
`strptime(None, ...)` raise `TypeError`; a format mismatch raises `ValueError`;
neither is caught. -/
def xml_obs_to_dict (xml_observation : XmlElem) (tz : PyTz) (long_format : Bool) : Except PyError ObsDict :=
  match xml_observation.get "from" with
  | none => .error .typeError
  | some date_str =>
    match strptimeMet date_str with
    | none => .error .valueError
    | some d0 =>
      let date := if tz.isUTC then d0 else tz.localize d0
      let locations := xml_observation.children
      let multiple_locations : Bool := decide (1 < locations.length)
      if long_format then
        (longLocs date none locations).map ObsDict.longD
      else
        (processLocs multiple_locations date [] locations).map ObsDict.wideD

/-! ## Table assembly: `xml_observations_to_df` (core.py lines 179-209) -/

/-- One row of a wide-form data frame: its index label (the `Date` value after
`set_index`, absent before) and its cells. A column missing from `cells` reads
as `NaN`, as in pandas. -/
structure WRow where
  idx : Option WVal
  cells : PyDict
deriving DecidableEq, Repr

/-- A wide-form pandas data frame: named columns plus rows. -/
structure WDf where
  cols : List (Option String)
  rows : List WRow
deriving DecidableEq, Repr

/-- Column set of `pd.DataFrame(list_of_dicts)`: union of the dicts' keys in
order of first appearance. -/
def colsUnion (ds : List PyDict) : List (Option String) :=
  ds.foldl (fun acc d => acc ++ (d.map (fun p => p.1)).filter (fun k => ¬ acc.contains k)) []

/-- `pd.DataFrame(list_of_dicts)`: one row per dict, cells materialized over
the full column set with `NaN` for missing keys, default integer index. -/
def buildWideDf (ds : List PyDict) : WDf :=
  let cols := colsUnion ds
  { cols := cols,
    rows := ds.map (fun d =>
      { idx := none, cells := cols.map (fun c => (c, (pyGet d c).getD .nanV)) }) }

/-- Pandas `df.empty`: true when either axis has length zero. -/
def WDf.isEmptyDf (df : WDf) : Bool :=
  df.rows.isEmpty || df.cols.isEmpty

/-- `weatherdf.set_index("Date", inplace=True)`: move the `Date` column to the
row index (`KeyError` when the column is absent). -/
def set_index_Date (df : WDf) : Except PyError WDf :=
  if df.cols.contains (some "Date") then
    .ok { cols := df.cols.filter (fun c => c != some "Date"),
          rows := df.rows.map (fun r =>
            { idx := pyGet r.cells (some "Date"),
              cells := r.cells.filter (fun p => p.1 != some "Date") }) }
  else .error .keyError

/-- The two target types of `WEATHER_ELEMENT_TYPES`. -/
inductive CastKind where
  | floatK
  | intK
deriving DecidableEq, Repr

/-- The element codes cast to `float` (core.py lines 18-21). -/
def floatElementCodes : List String :=
  ["TA", "TAX", "TAX_12", "TAN", "TAN_12", "TD",
   "SA", "RA", "RR_12", "RR_24",
   "FF", "DD"]

/-- The element codes cast to `int` (core.py lines 22-23). -/
def intElementCodes : List String := ["St.no", "SD"]

/-- `WEATHER_ELEMENT_TYPES` (core.py lines 18-23). -/
def WEATHER_ELEMENT_TYPES : List (CastKind × List String) :=
  [(.floatK, floatElementCodes), (.intK, intElementCodes)]

/-- Parse a nonempty all-digit character group (helper for the numeric
casts). -/
def parseNatDigits (cs : List Char) : Option Nat :=
  if 1 ≤ cs.length ∧ cs.all Char.isDigit then
    some (cs.foldl (fun n c => n * 10 + (c.toNat - 48)) 0)
  else none

/-- Model of Python `float(s)` on the decimal literals the service produces
(optional sign, digits, optional fractional part); `none` means `ValueError`. -/
def pyFloatOfString (s : String) : Option PyFloat :=
  let sgn : Int := if s.data.head? = some '-' then -1 else 1
  let body := if s.data.head? = some '-' then s.data.drop 1 else s.data
  match splitChar '.' body with
  | [ip] => (parseNatDigits ip).map (fun n => { mantissa := sgn * (n : Int), scale := 0 })
  | [ip, fp] =>
      match parseNatDigits ip, parseNatDigits fp with
      | some n, some f =>
          some { mantissa := sgn * ((n : Int) * (10 : Int) ^ fp.length + (f : Int)),
                 scale := fp.length }
      | _, _ => none
  | _ => none

/-- Model of Python `int(s)`; `none` means `ValueError`. -/
def pyIntOfString (s : String) : Option Int :=
  if s.data.head? = some '-' then (parseNatDigits (s.data.drop 1)).map (fun n => -(n : Int))
  else (parseNatDigits s.data).map (fun n => (n : Int))

/-- Apply `float` or `int` to one cell, with Python's behaviour on the
degenerate inputs: `float(nan) = nan`, `int(nan)` raises `ValueError`,
casting `None` raises `TypeError`. -/
def castCell (k : CastKind) (v : WVal) : Except PyError WVal :=
  match k, v with
  | .floatK, .nanV => .ok .nanV
  | .floatK, .strV s =>
      match pyFloatOfString s with
      | some q => .ok (.floatV q)
      | none => .error .valueError
  | .floatK, .floatV q => .ok (.floatV q)
  | .floatK, .intV n => .ok (.floatV { mantissa := n, scale := 0 })
  | .floatK, .noneV => .error .typeError
  | .floatK, .dval _ => .error .typeError
  | .intK, .nanV => .error .valueError
  | .intK, .strV s =>
      match pyIntOfString s with
      | some n => .ok (.intV n)
      | none => .error .valueError
  | .intK, .intV n => .ok (.intV n)
  | .intK, .floatV q => .ok (.intV (q.mantissa.tdiv ((10 : Int) ^ q.scale)))
  | .intK, .noneV => .error .typeError
  | .intK, .dval _ => .error .typeError

/-- `weatherdf[code] = weatherdf[code].apply(tp)`: cast every cell of one
column. -/
def castColumn (k : CastKind) (code : String) (df : WDf) : Except PyError WDf := do
  let rows ← mapExcept (fun r => do
      let v ← castCell k ((pyGet r.cells (some code)).getD .nanV)
      .ok { r with cells := pyInsert r.cells (some code) v }) df.rows
  .ok { df with rows := rows }

/-- Inner coercion loop: `for code in tp[1]: if code in weatherdf.columns ...`. -/
def coerceCodes (k : CastKind) : WDf → List String → Except PyError WDf
  | df, [] => .ok df
  | df, code :: rest => do
      let df1 ← if df.cols.contains (some code) then castColumn k code df else .ok df
      coerceCodes k df1 rest

/-- Outer coercion loop: `for tp in WEATHER_ELEMENT_TYPES: ...`. -/
def coerceTypes : WDf → List (CastKind × List String) → Except PyError WDf
  | df, [] => .ok df
  | df, tp :: rest => do
      let df1 ← coerceCodes tp.1 df tp.2
      coerceTypes df1 rest

/-- The data frame returned by the pipeline: wide or long shape. -/
inductive Df where
  | wide (w : WDf)
  | long (rows : List LongRow)
deriving DecidableEq, Repr

/-- Long rows carried by an `ObsDict` (a fragment with no locations leaves the
initial `{}`, hence zero rows). -/
def getLongRows (od : ObsDict) : List LongRow :=
  match od with
  | .longD r => r.getD []
  | .wideD _ => []

/-- Wide dict carried by an `ObsDict`. -/
def getWideDict (od : ObsDict) : PyDict :=
  match od with
  | .wideD d => d
  | .longD _ => []

/-- `xml_observations_to_df` (core.py lines 179-209). In long format the
source combines the per-fragment frames with `reduce(lambda x, y:
x.append(y, ignore_index=True), ...)` with no initial value, so an empty
fragment list raises `TypeError`. In wide format the frame is built, and when
non-empty indexed by `Date` and type-coerced. -/
def xml_observations_to_df (observations : List XmlElem) (tz : PyTz) (long_format : Bool) : Except PyError Df := do
  let dicts ← mapExcept (fun obs => xml_obs_to_dict obs tz long_format) observations
  if long_format then
    match dicts.map getLongRows with
    | [] => .error .typeError
    | l0 :: rest => .ok (.long (rest.foldl (fun a b => a ++ b) l0))
  else
    let weatherdf := buildWideDf (dicts.map getWideDict)
    if weatherdf.isEmptyDf then .ok (.wide weatherdf)
    else do
      let df1 ← set_index_Date weatherdf
      let df2 ← coerceTypes df1 WEATHER_ELEMENT_TYPES
      .ok (.wide df2)

/-! ## Query chunker / assembler: `get_met_data` (core.py lines 212-298) -/

/-- The outbound-call capability: the arguments of one `get_xml_obs`
invocation (timeserietypeid, stations, elements, from, to, hours, months)
mapped to its result. -/
abbrev Fetcher := String → String → String → String → String → String → String → Except PyError (List XmlElem)

/-- Hours expansion `",".join(map(str, range(0, 24)))`. -/
def hoursAll : String := String.intercalate "," ((List.range 24).map (fun n => toString n))

/-- The `if hours is "": hours = ...` expansion applied once per call. -/
def hoursExpand (hours : String) : String := if hours = "" then hoursAll else hours

/-- Python `int(s)` restricted to the year strings (digits); a non-numeric
string raises `ValueError`. -/
def pyIntNat (s : String) : Except PyError Nat :=
  match parseNatDigits s.data with
  | some n => .ok n
  | none => .error .valueError

/-- The empty `pd.DataFrame()`. -/
def emptyWDf : WDf := { cols := [], rows := [] }

/-- Append of two wide frames (`df.append(other)` without `ignore_index`):
columns united in order, rows concatenated keeping their index labels. -/
def wideAppend (a b : WDf) : WDf :=
  { cols := a.cols ++ b.cols.filter (fun c => ¬ a.cols.contains c),
    rows := a.rows ++ b.rows }

/-- `weather_df.append(tmp_df, ignore_index=ignore_index)` in `get_met_data`:
both operands always have the same shape during a call; appending the initial
empty wide frame to a long frame yields the long frame. -/
def dfAppend (a b : Df) (ignore_index : Bool) : Df :=
  match a, b with
  | .wide wa, .wide wb => .wide (wideAppend wa wb)
  | .long la, .long lb => .long (la ++ lb)
  | .wide _wa, .long lb => .long lb
  | .long la, .wide _wb => .long la

/-- Middle-year loop of `get_met_data` (core.py lines 280-290): one fetch per
whole intervening year, `Jan-1` through `Dec-31`, appended in order. -/
def coreYearLoop (fetch : Fetcher) (timeserietypeid stations elements hours months : String)
    (tz : PyTz) (long_format : Bool) : Df → List Nat → Except PyError Df
  | acc, [] => .ok acc
  | acc, year :: rest => do
      let tmp_xml_obs ← fetch timeserietypeid stations elements
        (toString year ++ "-01-01") (toString year ++ "-12-31") hours months
      let tmp_df ← xml_observations_to_df tmp_xml_obs tz long_format
      coreYearLoop fetch timeserietypeid stations elements hours months tz long_format
        (dfAppend acc tmp_df long_format) rest

/-- `core.get_met_data` (core.py lines 212-298), with the network capability a
parameter. In both the single-year branch and the first-year fetch the
accumulated `weather_df` is the freshly constructed empty frame, so the
`if weather_df.empty` test always assigns `tmp_df` directly. -/
def get_met_data (fetch : Fetcher) (timeserietypeid stations elements from_date to_date hours months : String)
    (tz : PyTz) (long_format : Bool) : Except PyError Df :=
  if timeserietypeid ≠ "2" then
    .error (.invalidQueryException (some "Only timeserietype 2 is supported in this version."))
  else
    let hours := hoursExpand hours
    let from_date_year := (pySplit from_date '-').headD ""
    let to_date_year := (pySplit to_date '-').headD ""
    if from_date_year == to_date_year then do
      let tmp_xml_obs ← fetch timeserietypeid stations elements from_date to_date hours months
      let tmp_df ← xml_observations_to_df tmp_xml_obs tz long_format
      .ok tmp_df
    else do
      let first_xml_obs ← fetch timeserietypeid stations elements from_date
        (from_date_year ++ "-12-31") hours months
      let first_df ← xml_observations_to_df first_xml_obs tz long_format
      let y1 ← pyIntNat from_date_year
      let y2 ← pyIntNat to_date_year
      let acc ← coreYearLoop fetch timeserietypeid stations elements hours months tz long_format
        first_df (List.range' (y1 + 1) (y2 - (y1 + 1)))
      let last_xml_obs ← fetch timeserietypeid stations elements
        (to_date_year ++ "-01-01") to_date hours months
      let last_df ← xml_observations_to_df last_xml_obs tz long_format
      .ok (dfAppend acc last_df long_format)

/-- The (from, to) date ranges of the fetches `get_met_data` issues, in order:
the exact range for a single-year query, otherwise the first partial year,
each whole intervening year, and the last partial year. -/
def chunkRanges (from_date to_date : String) : Except PyError (List (String × String)) :=
  let from_date_year := (pySplit from_date '-').headD ""
  let to_date_year := (pySplit to_date '-').headD ""
  if from_date_year == to_date_year then .ok [(from_date, to_date)]
  else do
    let y1 ← pyIntNat from_date_year
    let y2 ← pyIntNat to_date_year
    .ok ([(from_date, from_date_year ++ "-12-31")]
      ++ (List.range' (y1 + 1) (y2 - (y1 + 1))).map
          (fun year => (toString year ++ "-01-01", toString year ++ "-12-31"))
      ++ [(to_date_year ++ "-01-01", to_date)])

/-! ## The api.py assembler: `api.get_met_data` (api.py lines 8-97)

This wide-only variant loops over stations, appends per-chunk frames, then
sorts the combined frame by its index and moves `St.no` to the front. -/

/-- The api module calls `xml_observations_to_df` with the default
`long_format=False`, so the result is always a wide frame. -/
def xml_observations_to_df_wide (observations : List XmlElem) (tz : PyTz) : Except PyError WDf :=
  match xml_observations_to_df observations tz false with
  | .ok (.wide w) => .ok w
  | .ok (.long _) => .error .typeError
  | .error e => .error e

/-- Middle-year loop of `api.get_met_data` (api.py lines 73-83). Note the
source passes the full `stations` string here, not the current `station`. -/
def apiYearLoop (fetch : Fetcher) (timeserietypeid stations elements hours months : String)
    (tz : PyTz) : WDf → List Nat → Except PyError WDf
  | acc, [] => .ok acc
  | acc, year :: rest => do
      let tmp_xml_obs ← fetch timeserietypeid stations elements
        (toString year ++ "-01-01") (toString year ++ "-12-31") hours months
      let tmp_df ← xml_observations_to_df_wide tmp_xml_obs tz
      apiYearLoop fetch timeserietypeid stations elements hours months tz
        (wideAppend acc tmp_df) rest

/-- Body of the per-station loop of `api.get_met_data` (api.py lines 50-89):
the year-chunked fetches for one station, appended onto `weather_df`. -/
def apiChunks (fetch : Fetcher) (timeserietypeid stations station elements hours months
    from_date to_date from_date_year to_date_year : String) (tz : PyTz) (weather_df : WDf) :
    Except PyError WDf :=
  if from_date_year == to_date_year then do
    let tmp_xml_obs ← fetch timeserietypeid station elements from_date to_date hours months
    let tmp_df ← xml_observations_to_df_wide tmp_xml_obs tz
    .ok (if weather_df.isEmptyDf then tmp_df else wideAppend weather_df tmp_df)
  else do
    let first_xml_obs ← fetch timeserietypeid station elements from_date
      (from_date_year ++ "-12-31") hours months
    let first_df ← xml_observations_to_df_wide first_xml_obs tz
    let wdf := if weather_df.isEmptyDf then first_df else wideAppend weather_df first_df
    let y1 ← pyIntNat from_date_year
    let y2 ← pyIntNat to_date_year
    let wdf2 ← apiYearLoop fetch timeserietypeid stations elements hours months tz
      wdf (List.range' (y1 + 1) (y2 - (y1 + 1)))
    let last_xml_obs ← fetch timeserietypeid station elements
      (to_date_year ++ "-01-01") to_date hours months
    let last_df ← xml_observations_to_df_wide last_xml_obs tz
    .ok (wideAppend wdf2 last_df)

/-- Outer loop over `stations.split(",")` (api.py line 50). -/
def apiStationLoop (fetch : Fetcher) (timeserietypeid stations elements hours months
    from_date to_date from_date_year to_date_year : String) (tz : PyTz) :
    WDf → List String → Except PyError WDf
  | acc, [] => .ok acc
  | acc, station :: rest => do
      let acc2 ← apiChunks fetch timeserietypeid stations station elements hours months
        from_date to_date from_date_year to_date_year tz acc
      apiStationLoop fetch timeserietypeid stations elements hours months
        from_date to_date from_date_year to_date_year tz acc2 rest

/-- Chronological key of a date: strictly monotone in the lexicographic order
of (year, month, day, hour, minute, second, microsecond). -/
def dateKey (d : PyDateTime) : Nat :=
  (((((d.year * 13 + d.month) * 32 + d.day) * 24 + d.hour) * 60 + d.minute) * 60 + d.second)
    * 1000000 + d.usec

/-- Sort key of a row index label: date labels sort chronologically. -/
def rowKey (r : WRow) : Nat :=
  match r.idx with
  | some (.dval d) => 1 + dateKey d
  | _ => 0

/-- Row order used by `sort_index` (ascending). -/
def rowLE (a b : WRow) : Prop := rowKey a ≤ rowKey b

instance : DecidableRel rowLE := fun a b => Nat.decLe (rowKey a) (rowKey b)

instance : IsTotal WRow rowLE := ⟨fun a b => Nat.le_total (rowKey a) (rowKey b)⟩

instance : IsTrans WRow rowLE := ⟨fun _ _ _ h1 h2 => Nat.le_trans h1 h2⟩

/-- `weather_df.sort_index(inplace=True)`: rows reordered ascending by index
label, columns untouched. -/
def sort_index (df : WDf) : WDf :=
  { cols := df.cols, rows := List.insertionSort rowLE df.rows }

/-- `api.get_met_data` (api.py lines 8-97): per-station chunked fetches, then
`sort_index` and moving `St.no` to the front (`columns.remove("St.no")` raises
`ValueError` when the column is absent). -/
def api_get_met_data (fetch : Fetcher) (timeserietypeid stations elements from_date to_date hours months : String)
    (tz : PyTz) : Except PyError WDf :=
  if timeserietypeid ≠ "2" then
    .error (.invalidQueryException (some "Only timeserietype 2 is supported in this version."))
  else do
    let hours := hoursExpand hours
    let from_date_year := (pySplit from_date '-').headD ""
    let to_date_year := (pySplit to_date '-').headD ""
    let weather_df ← apiStationLoop fetch timeserietypeid stations elements hours months
      from_date to_date from_date_year to_date_year tz emptyWDf (pySplit stations ',')
    let sorted := sort_index weather_df
    if sorted.cols.contains (some "St.no") then
      .ok { cols := some "St.no" :: sorted.cols.erase (some "St.no"), rows := sorted.rows }
    else .error .valueError

/-! ## Concrete inputs used by witnesses and counterexamples -/

/-- A fragment holding two station-locations, each with one non-sentinel `TA`
value. -/
def twoLocFragment : XmlElem :=
  { tag := "WeatherData4",
    attrs := [("from", "2015-11-10T00:00:00.000000Z")],
    text := none,
    children :=
      [ { tag := "Location", attrs := [("id", "18700")], text := none,
          children := [ { tag := "WeatherElement", attrs := [("id", "TA")], text := none,
                          children := [{ tag := "Value", attrs := [], text := some "5.1", children := [] }] } ] },
        { tag := "Location", attrs := [("id", "68860")], text := none,
          children := [ { tag := "WeatherElement", attrs := [("id", "TA")], text := none,
                          children := [{ tag := "Value", attrs := [], text := some "7.2", children := [] }] } ] } ] }

/-- Does a result carry `UnknownXMLTagException`? -/
def isUnknownTagError {α : Type} (r : Except PyError α) : Bool :=
  match r with
  | .error (.unknownXMLTagException _) => true
  | _ => false

/-- Does a result carry `XMLParsingError`? -/
def isXMLParsingErrorRes {α : Type} (r : Except PyError α) : Bool :=
  match r with
  | .error (.xmlParsingError _) => true
  | _ => false

/-! ## Chunk composition: `get_met_data` as a fold over `chunkRanges` -/

/-- Processing of one chunk inside `get_met_data`: the fetch for one date
range followed by the conversion to a frame. -/
def processChunk (fetch : Fetcher) (stations elements hours months : String)
    (tz : PyTz) (long_format : Bool) (r : String × String) : Except PyError Df := do
  let obs ← fetch "2" stations elements r.1 r.2 hours months
  xml_observations_to_df obs tz long_format

/-! ## Claim C6 -/

/-- A full service response tree whose inner element is the `Error` tag with
message `"No data found"`. -/
def noDataTree : XmlElem :=
  ⟨"Envelope", [], none,
    [⟨"Body", [], none,
      [⟨"Response", [], none,
        [⟨"Return", [], none,
          [⟨"Error", [], none, [⟨"text", [], some "No data found", []⟩]⟩]⟩]⟩]⟩]⟩

/-- C6 witness fetcher: every chunk gets the "No data found" response. -/
def noDataFetcher : Fetcher := fun _ _ _ _ _ _ _ => get_xml_obs noDataTree

/-- The station-number element of the sample fragment. -/
def sampleStnoEl : XmlElem :=
  { tag := "WeatherElement", attrs := [("id", "St.no")], text := none,
    children := [{ tag := "Value", attrs := [], text := some "18700", children := [] }] }

/-- The temperature element of the sample fragment. -/
def sampleTaEl : XmlElem :=
  { tag := "WeatherElement", attrs := [("id", "TA")], text := none,
    children := [{ tag := "Value", attrs := [], text := some "7.5", children := [] }] }

/-- The `Value` child of the sentinel-valued precipitation element. -/
def sampleRr12Val : XmlElem :=
  { tag := "Value", attrs := [], text := some "-99999", children := [] }

/-- The sentinel-valued precipitation element of the sample fragment. -/
def sampleRr12El : XmlElem :=
  { tag := "WeatherElement", attrs := [("id", "RR_12")], text := none,
    children := [sampleRr12Val] }

/-- The single station-location of the sample fragment. -/
def sampleLoc : XmlElem :=
  { tag := "Location", attrs := [("id", "18700")], text := none,
    children := [sampleStnoEl, sampleTaEl, sampleRr12El] }

/-- A data fragment holding one station-location with a station number, a
temperature and a sentinel-valued precipitation element. -/
def sampleFragment : XmlElem :=
  { tag := "WeatherData4",
    attrs := [("from", "2015-11-10T06:00:00.000000Z")],
    text := none,
    children := [sampleLoc] }

/-- A full service response tree carrying `sampleFragment` under `Metdata`. -/
def sampleTree : XmlElem :=
  ⟨"Envelope", [], none,
    [⟨"Body", [], none,
      [⟨"Response", [], none,
        [⟨"Return", [], none,
          [⟨"Metdata", [], none, [sampleFragment]⟩]⟩]⟩]⟩]⟩

/-- A fetcher answering every chunk with `sampleTree`. -/
def sampleFetcher : Fetcher := fun _ _ _ _ _ _ _ => get_xml_obs sampleTree

/-- The wide frame produced by `sampleFetcher` for a one-chunk query. -/
def sampleWideDf : WDf :=
  { cols := [some "St.no", some "TA", some "RR_12"],
    rows := [{ idx := some (.dval ⟨2015, 11, 10, 6, 0, 0, 0⟩),
               cells := [(some "St.no", .intV 18700), (some "TA", .floatV ⟨75, 1⟩),
                         (some "RR_12", .nanV)] }] }

/-- No value of the dict is the raw sentinel string. -/
def valsNoSentinel (d : PyDict) : Prop := ∀ p ∈ d, p.2 ≠ WVal.strV "-99999"

/-! ## Coercion lemmas -/

/-- The shape guaranteed for a cell after a successful cast. -/
def cellTyped (k : CastKind) (v : WVal) : Prop :=
  match k with
  | .floatK => v = .nanV ∨ ∃ q, v = .floatV q
  | .intK => ∃ n, v = .intV n

/-- Row-wise guarantees of one inner coercion pass (`coerceCodes`): index kept,
cells outside the cast columns unchanged, nulls preserved, no sentinel string
introduced. -/
def coercedRowRel (codes : List String) (r r' : WRow) : Prop :=
  r'.idx = r.idx ∧
  (∀ k0, (∀ c ∈ codes, k0 ≠ some c) → pyGet r'.cells k0 = pyGet r.cells k0) ∧
  (∀ k0, pyGet r.cells k0 = some .nanV → pyGet r'.cells k0 = some .nanV) ∧
  (valsNoSentinel r.cells → valsNoSentinel r'.cells)

/-- A raw wide frame with a float-, an int- and an unknown column. -/
def c9df : WDf :=
  { cols := [some "TA", some "SD", some "XX"],
    rows := [{ idx := none,
               cells := [(some "TA", .strV "5.5"), (some "SD", .strV "3"),
                         (some "XX", .strV "raw")] }] }

/-- The coerced form of `c9df`. -/
def c9dfCoerced : WDf :=
  { cols := [some "TA", some "SD", some "XX"],
    rows := [{ idx := none,
               cells := [(some "TA", .floatV ⟨55, 1⟩), (some "SD", .intV 3),
                         (some "XX", .strV "raw")] }] }

/-- The dict key written for one weather element, totalized (`none` stands in
for the error case, which cannot occur in a successful run). -/
def elKeyT (multiple : Bool) (loc el : XmlElem) : Option String :=
  match wideKey multiple loc el with
  | .ok k => k
  | .error _ => none

/-- The dict keys written for one location's weather elements. -/
def locKeys (m : Bool) (loc : XmlElem) : List (Option String) :=
  loc.children.map (fun el => elKeyT m loc el)

/-- All dict keys written by a run of the wide location loop. -/
def fragWideKeysM (m : Bool) (locs : List XmlElem) : List (Option String) :=
  (locs.map (locKeys m)).flatten

/-- All dict keys written for a fragment's weather elements, in write order. -/
def fragWideKeys (frag : XmlElem) : List (Option String) :=
  fragWideKeysM (decide (1 < frag.children.length)) frag.children

/-! ## Claim C10 -/

/-- C10: when the envelope's inner element's tag is not `Metdata`, the code
reads `xml_data[0].text` before dispatching on the tag, so with no children it
fails with an uncaught `IndexError`; consequently `UnknownXMLTagException` is
only reachable when the element has at least one child. -/
theorem c10_unknown_tag_needs_child (e : XmlElem) :
    (e.tag ≠ "Metdata" → e.children = [] → processXmlData e = .error .indexError) ∧
    (∀ m, processXmlData e = .error (.unknownXMLTagException m) → e.children ≠ []) := by
  constructor
  · intro htag hch
    simp [processXmlData, htag, hch]
  · intro m hres hch
    by_cases htag : e.tag = "Metdata"
    · simp [processXmlData, htag] at hres
    · simp [processXmlData, htag, hch] at hres

/-- Witness for C10 at a concrete childless element with an unrecognized tag. -/
theorem c10_unknown_tag_needs_child_witness :
    processXmlData ⟨"Weird", [], none, []⟩ = .error .indexError :=
  (c10_unknown_tag_needs_child ⟨"Weird", [], none, []⟩).1 (by decide) rfl

/-! ## Claim C7 -/

/-- C7 (amended): for an inner element whose tag is not `Metdata`: with at
least one child, the `Error` tag with message exactly `"No data found"` yields
the empty fragment list, the `Error` tag with any other message raises
`InvalidQueryException` carrying that message verbatim, and any other tag
raises `UnknownXMLTagException`; with no children the code instead fails with
an uncaught `IndexError` from `xml_data[0]`. -/
theorem c7_non_data_dispatch (e : XmlElem) (htag : e.tag ≠ "Metdata") :
    (∀ first, e.children.head? = some first →
      (e.tag = "Error" → first.text = some "No data found" → processXmlData e = .ok []) ∧
      (e.tag = "Error" → first.text ≠ some "No data found" →
        processXmlData e = .error (.invalidQueryException first.text)) ∧
      (e.tag ≠ "Error" → processXmlData e = .error (.unknownXMLTagException e.tag))) ∧
    (e.children = [] → processXmlData e = .error .indexError) := by
  refine ⟨fun first hfirst => ⟨?_, ?_, ?_⟩, fun hch => ?_⟩
  · intro herr hmsg
    simp [processXmlData, htag, hfirst, herr, hmsg]
  · intro herr hmsg
    simp [processXmlData, htag, hfirst, herr, hmsg]
  · intro herr
    simp [processXmlData, htag, hfirst, herr]
  · simp [processXmlData, htag, hch]

/-- Witness for C7 on concrete envelopes: the three with-child dispatch
outcomes. -/
theorem c7_non_data_dispatch_witness :
    processXmlData ⟨"Error", [], none, [⟨"text", [], some "No data found", []⟩]⟩ = .ok [] ∧
    processXmlData ⟨"Error", [], none, [⟨"text", [], some "Bad query", []⟩]⟩ =
      .error (.invalidQueryException (some "Bad query")) ∧
    processXmlData ⟨"Odd", [], none, [⟨"text", [], some "x", []⟩]⟩ =
      .error (.unknownXMLTagException "Odd") :=
  ⟨((c7_non_data_dispatch ⟨"Error", [], none, [⟨"text", [], some "No data found", []⟩]⟩
      (by decide)).1 ⟨"text", [], some "No data found", []⟩ rfl).1 rfl rfl,
   ⟨((c7_non_data_dispatch ⟨"Error", [], none, [⟨"text", [], some "Bad query", []⟩]⟩
      (by decide)).1 ⟨"text", [], some "Bad query", []⟩ rfl).2.1 rfl (by decide),
    ((c7_non_data_dispatch ⟨"Odd", [], none, [⟨"text", [], some "x", []⟩]⟩
      (by decide)).1 ⟨"text", [], some "x", []⟩ rfl).2.2 (by decide)⟩⟩

/-- Counterexample to C7 as stated: a well-formed inner element with an
unrecognized tag and no children does not raise `UnknownXMLTagException`; it
raises an uncaught `IndexError`. -/
theorem c7_counterexample :
    processXmlData ⟨"Bogus", [], none, []⟩ = .error .indexError ∧
    isUnknownTagError (processXmlData ⟨"Bogus", [], none, []⟩) = false := by
  constructor <;> rfl

/-! ## Claim C8 -/

/-- C8 (amended): a fragment whose `from` timestamp attribute is missing makes
`strptime` raise an uncaught `TypeError`, and one whose timestamp does not
match `%Y-%m-%dT%H:%M:%S.%fZ` makes it raise an uncaught `ValueError`; neither
is converted to `XMLParsingError`. -/
theorem c8_timestamp_failures (frag : XmlElem) (tz : PyTz) (long_format : Bool) :
    (frag.get "from" = none → xml_obs_to_dict frag tz long_format = .error .typeError) ∧
    (∀ s, frag.get "from" = some s → strptimeMet s = none →
      xml_obs_to_dict frag tz long_format = .error .valueError) := by
  constructor
  · intro h
    simp [xml_obs_to_dict, h]
  · intro s hs hp
    simp [xml_obs_to_dict, hs, hp]

/-- Witness for C8 on concrete fragments: one missing the attribute, one with
a malformed timestamp. -/
theorem c8_timestamp_failures_witness :
    xml_obs_to_dict ⟨"o", [], none, []⟩ pytzUTC false = .error .typeError ∧
    xml_obs_to_dict ⟨"o", [("from", "2015-13-99")], none, []⟩ pytzUTC true = .error .valueError :=
  ⟨(c8_timestamp_failures _ pytzUTC false).1 rfl,
   (c8_timestamp_failures _ pytzUTC true).2 "2015-13-99" rfl (by decide)⟩

/-- Counterexample to C8 as stated: a malformed timestamp raises `ValueError`,
not `XMLParsingError`. -/
theorem c8_counterexample :
    xml_obs_to_dict ⟨"obs", [("from", "not-a-date")], none, []⟩ pytzUTC false = .error .valueError ∧
    isXMLParsingErrorRes (xml_obs_to_dict ⟨"obs", [("from", "not-a-date")], none, []⟩ pytzUTC false) = false := by
  constructor <;> rfl

/-! ## Claim C3 -/

/-- C3: the long branch of `xml_obs_to_dict` re-initializes its accumulator
dict inside the location loop, so for this fragment with two locations, each
holding one non-sentinel `TA` value, only the last location's record is
returned; the first location (`18700`, value `"5.1"`) produces no record. -/
theorem c3_long_keeps_only_last_location :
    xml_obs_to_dict twoLocFragment pytzUTC true =
      .ok (.longD (some [⟨⟨2015, 11, 10, 0, 0, 0, 0⟩, some "68860", some "TA", some "7.2"⟩])) := by
  decide

@[simp] theorem exBind_ok {α β : Type} (a : α) (f : α → Except PyError β) :
    (Except.ok a >>= f : Except PyError β) = f a := rfl

@[simp] theorem exBind_error {α β : Type} (e : PyError) (f : α → Except PyError β) :
    ((Except.error e : Except PyError α) >>= f) = Except.error e := rfl

@[simp] theorem exBindm_ok {α β : Type} (a : α) (f : α → Except PyError β) :
    (Except.ok a : Except PyError α).bind f = f a := rfl

@[simp] theorem exBindm_error {α β : Type} (e : PyError) (f : α → Except PyError β) :
    (Except.error e : Except PyError α).bind f = Except.error e := rfl

@[simp] theorem exMap_ok {α β : Type} (g : α → β) (a : α) :
    Except.map g (Except.ok a : Except PyError α) = Except.ok (g a) := rfl

@[simp] theorem exMap_error {α β : Type} (g : α → β) (e : PyError) :
    Except.map g (Except.error e : Except PyError α) = Except.error e := rfl

theorem dfAppend_emptyW (d : Df) (b : Bool) : dfAppend (.wide emptyWDf) d b = d := by
  cases d with
  | wide w => simp [dfAppend, wideAppend, emptyWDf]
  | long l => rfl

theorem mapExcept_cons {α β : Type} (f : α → Except PyError β) (a : α) (as : List α) :
    mapExcept f (a :: as) =
      (f a).bind (fun b => (mapExcept f as).bind (fun bs => .ok (b :: bs))) := rfl

theorem mapExcept_append {α β : Type} (f : α → Except PyError β) (xs ys : List α) :
    mapExcept f (xs ++ ys) =
      (mapExcept f xs).bind (fun as => (mapExcept f ys).bind (fun bs => .ok (as ++ bs))) := by
  induction xs with
  | nil =>
      cases h : mapExcept f ys <;> simp [mapExcept, h]
  | cons x xs ih =>
      cases hx : f x with
      | error e => simp [mapExcept, hx]
      | ok b =>
          cases hxs : mapExcept f xs with
          | error e => simp [mapExcept, hx, hxs, ih]
          | ok bs =>
              cases hys : mapExcept f ys with
              | error e => simp [mapExcept, hx, hxs, hys, ih]
              | ok cs => simp [mapExcept, hx, hxs, hys, ih]

theorem processChunk_eval (fetch : Fetcher) (stations elements hours months : String)
    (tz : PyTz) (lf : Bool) (a b : String) :
    processChunk fetch stations elements hours months tz lf (a, b) =
      (fetch "2" stations elements a b hours months).bind
        (fun obs => xml_observations_to_df obs tz lf) := rfl

theorem mapExcept_map {α γ β : Type} (g : α → γ) (f : γ → Except PyError β) (l : List α) :
    mapExcept f (l.map g) = mapExcept (fun a => f (g a)) l := by
  induction l with
  | nil => rfl
  | cons x xs ih => simp [mapExcept, ih]

theorem coreYearLoop_eq_chunks (fetch : Fetcher) (stations elements hours months : String)
    (tz : PyTz) (lf : Bool) (years : List Nat) (acc : Df) :
    coreYearLoop fetch "2" stations elements hours months tz lf acc years =
      (mapExcept (fun y => processChunk fetch stations elements hours months tz lf
          (toString y ++ "-01-01", toString y ++ "-12-31")) years).map
        (fun ds => ds.foldl (fun a d => dfAppend a d lf) acc) := by
  induction years generalizing acc with
  | nil => rfl
  | cons y ys ih =>
      simp only [coreYearLoop, mapExcept_cons, processChunk_eval]
      cases hf : fetch "2" stations elements (toString y ++ "-01-01") (toString y ++ "-12-31") hours months with
      | error e => simp [hf]
      | ok obs =>
          simp only [hf, exBind_ok, exBindm_ok]
          cases hc : xml_observations_to_df obs tz lf with
          | error e => simp [hc]
          | ok d =>
              simp only [hc, exBind_ok, exBindm_ok, ih]
              cases hrest : mapExcept (fun y => processChunk fetch stations elements hours months tz lf
                  (toString y ++ "-01-01", toString y ++ "-12-31")) ys with
              | error e =>
                  simp only [processChunk_eval] at hrest
                  simp [hrest]
              | ok ds =>
                  simp only [processChunk_eval] at hrest
                  simp [hrest, List.foldl_cons]

theorem get_met_data_eq_chunks (fetch : Fetcher) (stations elements from_date to_date hours months : String)
    (tz : PyTz) (lf : Bool) (rs : List (String × String))
    (h : chunkRanges from_date to_date = .ok rs) :
    get_met_data fetch "2" stations elements from_date to_date hours months tz lf =
      (mapExcept (processChunk fetch stations elements (hoursExpand hours) months tz lf) rs).map
        (fun ds => ds.foldl (fun a d => dfAppend a d lf) (Df.wide emptyWDf)) := by
  simp only [chunkRanges] at h
  simp only [get_met_data]
  rw [if_neg (fun hh => hh rfl)]
  by_cases hyy : ((pySplit from_date '-').headD "" == (pySplit to_date '-').headD "") = true
  · rw [if_pos hyy] at h ⊢
    cases h
    cases hf : fetch "2" stations elements from_date to_date (hoursExpand hours) months with
    | error e => simp [mapExcept_cons, processChunk_eval, hf, mapExcept]
    | ok obs =>
        cases hc : xml_observations_to_df obs tz lf with
        | error e => simp [mapExcept_cons, processChunk_eval, hf, hc, mapExcept]
        | ok d => simp [mapExcept_cons, processChunk_eval, hf, hc, mapExcept, dfAppend_emptyW]
  · rw [if_neg hyy] at h ⊢
    cases hy1 : pyIntNat ((pySplit from_date '-').headD "") with
    | error e =>
        rw [hy1] at h
        exact absurd h (by simp)
    | ok y1 =>
    cases hy2 : pyIntNat ((pySplit to_date '-').headD "") with
    | error e =>
        rw [hy1, hy2] at h
        exact absurd h (by simp)
    | ok y2 =>
    rw [hy1, hy2] at h
    simp only [exBind_ok] at h
    cases h
    simp only [hy1, hy2, exBind_ok, exBindm_ok, List.singleton_append]
    simp only [mapExcept_cons, mapExcept_append, mapExcept_map]
    simp only [coreYearLoop_eq_chunks, processChunk_eval]
    cases hf : fetch "2" stations elements from_date ((pySplit from_date '-').headD "" ++ "-12-31")
        (hoursExpand hours) months with
    | error e => simp only [hf, exBind_error, exBindm_error, exMap_error]
    | ok obs1 =>
    simp only [hf, exBind_ok, exBindm_ok]
    cases hc1 : xml_observations_to_df obs1 tz lf with
    | error e => simp only [hc1, exBind_error, exBindm_error, exMap_error]
    | ok d1 =>
    simp only [hc1, exBind_ok, exBindm_ok]
    cases hmid : mapExcept (fun y =>
        (fetch "2" stations elements (toString y ++ "-01-01") (toString y ++ "-12-31")
          (hoursExpand hours) months).bind
        (fun obs => xml_observations_to_df obs tz lf)) (List.range' (y1 + 1) (y2 - (y1 + 1))) with
    | error e => simp only [hmid, exBind_error, exBindm_error, exMap_error]
    | ok ms =>
    simp only [hmid, exBind_ok, exBindm_ok, exMap_ok]
    simp only [mapExcept, processChunk_eval]
    cases hfl : fetch "2" stations elements ((pySplit to_date '-').headD "" ++ "-01-01") to_date
        (hoursExpand hours) months with
    | error e => simp only [hfl, exBind_error, exBindm_error, exMap_error]
    | ok obsl =>
    simp only [hfl, exBind_ok, exBindm_ok]
    cases hcl : xml_observations_to_df obsl tz lf with
    | error e => simp only [hcl, exBind_error, exBindm_error, exMap_error]
    | ok dl =>
    simp only [hcl, exBind_ok, exBindm_ok, exMap_ok, List.foldl_append, List.foldl_cons,
      List.foldl_nil, dfAppend_emptyW]

/-! ## Claim C1 -/

/-- C1: for a single-year query the assembler issues exactly one fetch for the
exact range; for a query spanning years `y1 < y2` it issues `y2 - y1 + 1`
fetches in ascending year order: `from_date` through `Dec-31` of `y1`, then
`Jan-1` through `Dec-31` of each intervening year, then `Jan-1` of `y2`
through `to_date`. The hypotheses say that the year components extracted by
`get_met_data` from the two dates are numeric strings denoting `y1` and `y2`,
equal as strings exactly when the years coincide (true for canonical
`YYYY-MM-DD` dates). In each case `get_met_data`'s whole computation equals
the in-order processing of exactly that fetch list. -/
theorem c1_chunk_schedule (from_date to_date s1 s2 : String) (y1 y2 : Nat)
    (h1 : (pySplit from_date '-').headD "" = s1)
    (h2 : (pySplit to_date '-').headD "" = s2)
    (hy1 : parseNatDigits s1.data = some y1)
    (hy2 : parseNatDigits s2.data = some y2)
    (hcanon : s1 = s2 ↔ y1 = y2) :
    (y1 = y2 →
      chunkRanges from_date to_date = .ok [(from_date, to_date)] ∧
      ∀ fetch stations elements hours months tz lf,
        get_met_data fetch "2" stations elements from_date to_date hours months tz lf =
          (mapExcept (processChunk fetch stations elements (hoursExpand hours) months tz lf)
              [(from_date, to_date)]).map
            (fun ds => ds.foldl (fun a d => dfAppend a d lf) (Df.wide emptyWDf))) ∧
    (y1 < y2 →
      chunkRanges from_date to_date =
        .ok ([(from_date, s1 ++ "-12-31")]
          ++ (List.range' (y1 + 1) (y2 - (y1 + 1))).map
              (fun year => (toString year ++ "-01-01", toString year ++ "-12-31"))
          ++ [(s2 ++ "-01-01", to_date)]) ∧
      ([(from_date, s1 ++ "-12-31")]
          ++ (List.range' (y1 + 1) (y2 - (y1 + 1))).map
              (fun year => (toString year ++ "-01-01", toString year ++ "-12-31"))
          ++ [(s2 ++ "-01-01", to_date)]).length = y2 - y1 + 1 ∧
      ∀ fetch stations elements hours months tz lf,
        get_met_data fetch "2" stations elements from_date to_date hours months tz lf =
          (mapExcept (processChunk fetch stations elements (hoursExpand hours) months tz lf)
              ([(from_date, s1 ++ "-12-31")]
                ++ (List.range' (y1 + 1) (y2 - (y1 + 1))).map
                    (fun year => (toString year ++ "-01-01", toString year ++ "-12-31"))
                ++ [(s2 ++ "-01-01", to_date)])).map
            (fun ds => ds.foldl (fun a d => dfAppend a d lf) (Df.wide emptyWDf))) := by
  have hchunk1 : y1 = y2 → chunkRanges from_date to_date = .ok [(from_date, to_date)] := by
    intro heq
    have hs : s1 = s2 := hcanon.mpr heq
    simp only [chunkRanges, h1, h2]
    rw [if_pos]
    exact beq_iff_eq.mpr hs
  have hchunk2 : y1 < y2 →
      chunkRanges from_date to_date =
        .ok ([(from_date, s1 ++ "-12-31")]
          ++ (List.range' (y1 + 1) (y2 - (y1 + 1))).map
              (fun year => (toString year ++ "-01-01", toString year ++ "-12-31"))
          ++ [(s2 ++ "-01-01", to_date)]) := by
    intro hlt
    have hs : s1 ≠ s2 := fun h => Nat.lt_irrefl y1 (hcanon.mp h ▸ hlt)
    simp only [chunkRanges, h1, h2]
    rw [if_neg]
    · simp only [pyIntNat, hy1, hy2]
      rfl
    · exact fun h => hs (beq_iff_eq.mp h)
  refine ⟨fun heq => ⟨hchunk1 heq, ?_⟩, fun hlt => ⟨hchunk2 hlt, ?_, ?_⟩⟩
  · intro fetch stations elements hours months tz lf
    exact get_met_data_eq_chunks fetch stations elements from_date to_date hours months tz lf
      _ (hchunk1 heq)
  · simp [List.length_append, List.length_range']
    omega
  · intro fetch stations elements hours months tz lf
    exact get_met_data_eq_chunks fetch stations elements from_date to_date hours months tz lf
      _ (hchunk2 hlt)

/-- Witness for C1: a concrete query spanning 2014 through 2017 yields the
four expected year-bounded fetch ranges. -/
theorem c1_chunk_schedule_witness :
    chunkRanges "2014-03-05" "2017-08-02" =
      .ok [("2014-03-05", "2014-12-31"), ("2015-01-01", "2015-12-31"),
           ("2016-01-01", "2016-12-31"), ("2017-01-01", "2017-08-02")] := by
  have h := (c1_chunk_schedule "2014-03-05" "2017-08-02" "2014" "2017" 2014 2017
    (by decide) (by decide) (by decide) (by decide) (by decide)).2 (by omega)
  rw [h.1]
  decide

theorem mapExcept_ok_mem {α β : Type} {f : α → Except PyError β} :
    ∀ {l : List α} {l' : List β}, mapExcept f l = .ok l' → ∀ b ∈ l', ∃ a ∈ l, f a = .ok b := by
  intro l
  induction l with
  | nil =>
      intro l' h b hb
      cases h
      cases hb
  | cons x xs ih =>
      intro l' h b hb
      cases hx : f x with
      | error e => rw [mapExcept_cons, hx] at h; cases h
      | ok bx =>
          rw [mapExcept_cons, hx] at h
          cases hxs : mapExcept f xs with
          | error e => rw [hxs] at h; cases h
          | ok bs =>
              rw [hxs] at h
              simp only [exBindm_ok] at h
              cases h
              rcases List.mem_cons.mp hb with hb | hb
              · exact ⟨x, List.mem_cons_self x xs, hb ▸ hx⟩
              · obtain ⟨a, ha, hfa⟩ := ih hxs b hb
                exact ⟨a, List.mem_cons_of_mem x ha, hfa⟩

theorem xml_observations_to_df_wide_shape (obs : List XmlElem) (tz : PyTz) (df : Df)
    (h : xml_observations_to_df obs tz false = .ok df) : ∃ w : WDf, df = .wide w := by
  unfold xml_observations_to_df at h
  cases hm : mapExcept (fun o => xml_obs_to_dict o tz false) obs with
  | error e => rw [hm] at h; cases h
  | ok dicts =>
      rw [hm] at h
      simp only [exBind_ok, Bool.false_eq_true, if_false] at h
      by_cases he : (buildWideDf (dicts.map getWideDict)).isEmptyDf = true
      · rw [if_pos he] at h
        cases h
        exact ⟨_, rfl⟩
      · rw [if_neg he] at h
        cases hsi : set_index_Date (buildWideDf (dicts.map getWideDict)) with
        | error e => rw [hsi] at h; cases h
        | ok df1 =>
            rw [hsi] at h
            simp only [exBind_ok] at h
            cases hct : coerceTypes df1 WEATHER_ELEMENT_TYPES with
            | error e => rw [hct] at h; cases h
            | ok df2 =>
                rw [hct] at h
                simp only [exBind_ok] at h
                cases h
                exact ⟨_, rfl⟩

theorem all_wide_exists_list {ds : List Df} (h : ∀ b ∈ ds, ∃ w : WDf, b = .wide w) :
    ∃ ws : List WDf, ds = ws.map Df.wide := by
  induction ds with
  | nil => exact ⟨[], rfl⟩
  | cons d ds ih =>
      obtain ⟨w, hw⟩ := h d (List.mem_cons_self d ds)
      obtain ⟨ws, hws⟩ := ih (fun b hb => h b (List.mem_cons_of_mem d hb))
      exact ⟨w :: ws, by rw [hw, hws]; rfl⟩

theorem foldl_dfAppend_wide (ws : List WDf) (acc : WDf) :
    (ws.map Df.wide).foldl (fun a d => dfAppend a d false) (.wide acc) =
      .wide (ws.foldl wideAppend acc) := by
  induction ws generalizing acc with
  | nil => rfl
  | cons w ws ih =>
      rw [List.map_cons, List.foldl_cons]
      rw [show dfAppend (Df.wide acc) (Df.wide w) false = Df.wide (wideAppend acc w) from rfl]
      exact ih (wideAppend acc w)

theorem foldl_wideAppend_rows (ws : List WDf) (acc : WDf) :
    (ws.foldl wideAppend acc).rows = acc.rows ++ (ws.map WDf.rows).flatten := by
  induction ws generalizing acc with
  | nil => simp
  | cons w ws ih => simp [List.foldl_cons, ih, wideAppend]

theorem xml_observations_to_df_nil_long (tz : PyTz) :
    xml_observations_to_df [] tz true = .error .typeError := rfl

/-- C6 (amended): for every wide-form query, any chunk whose fetch succeeds
(in particular one answered with "No data found", which `get_xml_obs` turns
into an empty fragment list) contributes exactly its own rows, no exception is
raised, and processing continues: the assembler's result is the in-order
concatenation of the per-chunk frames, so all-empty chunks give a zero-row
table. In long form the claim fails: with every chunk empty the assembler
raises `TypeError` (`reduce` over an empty sequence). -/
theorem c6_empty_chunks (fetch : Fetcher) (stations elements hours months from_date to_date : String)
    (tz : PyTz) :
    (∀ rs ds, chunkRanges from_date to_date = .ok rs →
        mapExcept (processChunk fetch stations elements (hoursExpand hours) months tz false) rs = .ok ds →
        ∃ ws : List WDf, ds = ws.map Df.wide ∧
          get_met_data fetch "2" stations elements from_date to_date hours months tz false =
            .ok (.wide (ws.foldl wideAppend emptyWDf)) ∧
          (ws.foldl wideAppend emptyWDf).rows = (ws.map WDf.rows).flatten) ∧
    ((∀ a b c d e f g, fetch a b c d e f g = .ok []) →
        get_met_data fetch "2" stations elements from_date to_date hours months tz true =
          .error .typeError) := by
  constructor
  · intro rs ds hrs hmap
    have hall : ∀ b ∈ ds, ∃ w : WDf, b = .wide w := by
      intro b hb
      obtain ⟨r, hr, hpc⟩ := mapExcept_ok_mem hmap b hb
      rw [processChunk] at hpc
      cases hfe : fetch "2" stations elements r.1 r.2 (hoursExpand hours) months with
      | error e => rw [hfe] at hpc; cases hpc
      | ok obs =>
          rw [hfe] at hpc
          simp only [exBind_ok] at hpc
          exact xml_observations_to_df_wide_shape obs tz b hpc
    obtain ⟨ws, hws⟩ := all_wide_exists_list hall
    refine ⟨ws, hws, ?_, foldl_wideAppend_rows ws emptyWDf⟩
    rw [get_met_data_eq_chunks fetch stations elements from_date to_date hours months tz false rs hrs]
    rw [hmap]
    rw [exMap_ok]
    rw [hws, foldl_dfAppend_wide]
  · intro hfetch
    simp only [get_met_data]
    rw [if_neg (fun hh => hh rfl)]
    by_cases hyy : ((pySplit from_date '-').headD "" == (pySplit to_date '-').headD "") = true
    · rw [if_pos hyy]
      simp only [hfetch, exBind_ok, xml_observations_to_df_nil_long, exBind_error]
    · rw [if_neg hyy]
      simp only [hfetch, exBind_ok, xml_observations_to_df_nil_long, exBind_error]

/-- Witness for C6: a single-year query where the service reports
"No data found" returns the zero-row wide frame. -/
theorem c6_empty_chunks_witness :
    ∃ ws : List WDf, [Df.wide emptyWDf] = ws.map Df.wide ∧
      get_met_data noDataFetcher "2" "18700" "TA" "2015-01-01" "2015-01-05" "0" "" pytzUTC false =
        .ok (.wide (ws.foldl wideAppend emptyWDf)) ∧
      (ws.foldl wideAppend emptyWDf).rows = (ws.map WDf.rows).flatten :=
  (c6_empty_chunks noDataFetcher "18700" "TA" "0" "" "2015-01-01" "2015-01-05" pytzUTC).1
    [("2015-01-01", "2015-01-05")] [Df.wide emptyWDf] (by decide) (by decide)

/-- Counterexample to C6 as stated (wide *or* long): the same all-empty
service responses make the long-form assembler raise `TypeError`. -/
theorem c6_counterexample :
    get_met_data noDataFetcher "2" "18700" "TA" "2015-01-01" "2015-01-05" "0" "" pytzUTC true =
      .error .typeError := by decide

/-! ## Claims C4 and C5 -/

/-- C4: every wide table returned by the api assembler has rows in
non-decreasing index order (dates sort chronologically), the final
`sort_index` step guaranteeing this regardless of chunk emission order. -/
theorem c4_wide_sorted (fetch : Fetcher)
    (timeserietypeid stations elements from_date to_date hours months : String)
    (tz : PyTz) (df : WDf)
    (h : api_get_met_data fetch timeserietypeid stations elements from_date to_date hours months tz = .ok df) :
    df.rows.Pairwise rowLE ∧
    df.rows.Pairwise (fun a b => ∀ d1 d2, a.idx = some (.dval d1) → b.idx = some (.dval d2) →
      dateKey d1 ≤ dateKey d2) := by
  by_cases ht : timeserietypeid = "2"
  · subst ht
    simp only [api_get_met_data] at h
    rw [if_neg (fun hh => hh rfl)] at h
    cases hloop : apiStationLoop fetch "2" stations elements (hoursExpand hours) months
        from_date to_date ((pySplit from_date '-').headD "") ((pySplit to_date '-').headD "")
        tz emptyWDf (pySplit stations ',') with
    | error e => rw [hloop] at h; cases h
    | ok wdf =>
        rw [hloop] at h
        simp only [exBind_ok] at h
        by_cases hc : (sort_index wdf).cols.contains (some "St.no") = true
        · rw [if_pos hc] at h
          cases h
          have hsorted : List.Pairwise rowLE (List.insertionSort rowLE wdf.rows) :=
            List.sorted_insertionSort rowLE wdf.rows
          refine ⟨hsorted, hsorted.imp ?_⟩
          intro a b hab d1 d2 h1 h2
          have hk : rowKey a ≤ rowKey b := hab
          simp only [rowKey, h1, h2] at hk
          omega
        · rw [if_neg hc] at h
          cases h
  · rw [api_get_met_data, if_pos ht] at h
    cases h

/-- C5: every wide table returned by the api assembler contains the `St.no`
column, and the final reordering step makes it the first column. -/
theorem c5_stno_first (fetch : Fetcher)
    (timeserietypeid stations elements from_date to_date hours months : String)
    (tz : PyTz) (df : WDf)
    (h : api_get_met_data fetch timeserietypeid stations elements from_date to_date hours months tz = .ok df) :
    df.cols.head? = some (some "St.no") ∧ (some "St.no") ∈ df.cols := by
  by_cases ht : timeserietypeid = "2"
  · subst ht
    simp only [api_get_met_data] at h
    rw [if_neg (fun hh => hh rfl)] at h
    cases hloop : apiStationLoop fetch "2" stations elements (hoursExpand hours) months
        from_date to_date ((pySplit from_date '-').headD "") ((pySplit to_date '-').headD "")
        tz emptyWDf (pySplit stations ',') with
    | error e => rw [hloop] at h; cases h
    | ok wdf =>
        rw [hloop] at h
        simp only [exBind_ok] at h
        by_cases hc : (sort_index wdf).cols.contains (some "St.no") = true
        · rw [if_pos hc] at h
          cases h
          exact ⟨rfl, List.mem_cons_self _ _⟩
        · rw [if_neg hc] at h
          cases h
  · rw [api_get_met_data, if_pos ht] at h
    cases h

/-- Witness for C4 at a concrete query. -/
theorem c4_wide_sorted_witness :
    sampleWideDf.rows.Pairwise rowLE :=
  (c4_wide_sorted sampleFetcher "2" "18700" "TA,St.no" "2015-11-10" "2015-11-13" "6" "" pytzUTC
    sampleWideDf (by decide)).1

/-- Witness for C5 at a concrete query. -/
theorem c5_stno_first_witness :
    sampleWideDf.cols.head? = some (some "St.no") ∧ (some "St.no") ∈ sampleWideDf.cols :=
  c5_stno_first sampleFetcher "2" "18700" "TA,St.no" "2015-11-10" "2015-11-13" "6" "" pytzUTC
    sampleWideDf (by decide)

/-! ## Claims C2 and C9: sentinel handling and type coercion -/

/-! ## Dictionary lemmas -/

theorem pyGet_cons (p : Option String × WVal) (d : PyDict) (k : Option String) :
    pyGet (p :: d) k = if (p.1 == k) = true then some p.2 else pyGet d k := by
  by_cases h : (p.1 == k) = true
  · simp [pyGet, List.find?, h]
  · rw [Bool.not_eq_true] at h
    simp [pyGet, List.find?, h]

theorem pyGet_pyInsert_self (d : PyDict) (k : Option String) (v : WVal) :
    pyGet (pyInsert d k v) k = some v := by
  induction d with
  | nil => simp [pyInsert, pyGet, List.find?]
  | cons p d ih =>
      by_cases h : (p.1 == k) = true
      · simp [pyInsert, h, pyGet, List.find?]
      · rw [Bool.not_eq_true] at h
        simp only [pyInsert, h, Bool.false_eq_true, if_false]
        rw [pyGet_cons, h]
        simpa using ih

theorem pyGet_pyInsert_ne (d : PyDict) (k k' : Option String) (v : WVal) (hne : k' ≠ k) :
    pyGet (pyInsert d k v) k' = pyGet d k' := by
  have hkk : (k == k') = false := by
    rw [beq_eq_false_iff_ne]
    exact fun h => hne h.symm
  induction d with
  | nil =>
      simp only [pyInsert]
      rw [pyGet_cons, hkk]
      simp [pyGet, List.find?]
  | cons p d ih =>
      by_cases h : (p.1 == k) = true
      · have hp : p.1 = k := beq_iff_eq.mp h
        simp only [pyInsert, h, if_true]
        rw [pyGet_cons, pyGet_cons]
        have : (p.1 == k') = false := by rw [hp]; exact hkk
        rw [hkk, this]
        simp
      · rw [Bool.not_eq_true] at h
        simp only [pyInsert, h, Bool.false_eq_true, if_false]
        rw [pyGet_cons, pyGet_cons, ih]

theorem pyGet_mem (d : PyDict) (k : Option String) (v : WVal) (h : pyGet d k = some v) :
    (k, v) ∈ d := by
  induction d with
  | nil => cases h
  | cons p d ih =>
      rw [pyGet_cons] at h
      by_cases hp : (p.1 == k) = true
      · rw [if_pos hp] at h
        have h1 : p.1 = k := beq_iff_eq.mp hp
        have h2 : p.2 = v := by cases h; rfl
        have : p = (k, v) := by
          cases p
          simp_all
        rw [← this]
        exact List.mem_cons_self p d
      · rw [if_neg hp] at h
        exact List.mem_cons_of_mem p (ih h)

theorem valsNoSentinel_insert {d : PyDict} {k : Option String} {v : WVal}
    (hd : valsNoSentinel d) (hv : v ≠ .strV "-99999") : valsNoSentinel (pyInsert d k v) := by
  induction d with
  | nil =>
      intro p hp
      simp only [pyInsert] at hp
      have := List.mem_singleton.mp hp
      cases this
      exact hv
  | cons q d ih =>
      intro p hp
      simp only [pyInsert] at hp
      by_cases hq : (q.1 == k) = true
      · rw [if_pos hq] at hp
        rcases List.mem_cons.mp hp with hp | hp
        · cases hp; exact hv
        · exact hd p (List.mem_cons_of_mem q hp)
      · rw [if_neg hq] at hp
        rcases List.mem_cons.mp hp with hp | hp
        · cases hp; exact hd q (List.mem_cons_self q d)
        · exact ih (fun r hr => hd r (List.mem_cons_of_mem q hr)) p hp

theorem valsNoSentinel_pyGet {d : PyDict} (hd : valsNoSentinel d) (k : Option String) :
    pyGet d k ≠ some (.strV "-99999") := by
  intro h
  exact hd (k, .strV "-99999") (pyGet_mem d k _ h) rfl

theorem mapExcept_ok_forall2 {α β : Type} {f : α → Except PyError β} :
    ∀ {l : List α} {l' : List β}, mapExcept f l = .ok l' →
      List.Forall₂ (fun a b => f a = .ok b) l l' := by
  intro l
  induction l with
  | nil =>
      intro l' h
      cases h
      exact List.Forall₂.nil
  | cons x xs ih =>
      intro l' h
      cases hx : f x with
      | error e => rw [mapExcept_cons, hx] at h; cases h
      | ok bx =>
          rw [mapExcept_cons, hx] at h
          cases hxs : mapExcept f xs with
          | error e => rw [hxs] at h; cases h
          | ok bs =>
              rw [hxs] at h
              simp only [exBindm_ok] at h
              cases h
              exact List.Forall₂.cons hx (ih hxs)

theorem castCell_typed {k : CastKind} {v v' : WVal} (h : castCell k v = .ok v') :
    cellTyped k v' := by
  cases k <;> cases v <;> simp [castCell, cellTyped] at h ⊢ <;> first
    | (cases h; simp)
    | (revert h; split <;> intro h <;> (try cases h) <;> simp_all)

theorem castCell_nanV {k : CastKind} {v' : WVal} (h : castCell k .nanV = .ok v') :
    v' = .nanV := by
  cases k <;> simp [castCell] at h
  exact h.symm

theorem castCell_not_strV {k : CastKind} {v v' : WVal} (h : castCell k v = .ok v') (s : String) :
    v' ≠ .strV s := by
  cases k <;> cases v <;> simp [castCell] at h <;> first
    | (cases h; simp)
    | (revert h; split <;> intro h <;> (try cases h) <;> simp_all)

theorem castColumn_ok {k : CastKind} {code : String} {df df' : WDf}
    (h : castColumn k code df = .ok df') :
    df'.cols = df.cols ∧
    List.Forall₂ (fun r r' => r'.idx = r.idx ∧
      ∃ v', castCell k ((pyGet r.cells (some code)).getD .nanV) = .ok v' ∧
            r'.cells = pyInsert r.cells (some code) v') df.rows df'.rows := by
  unfold castColumn at h
  cases hm : mapExcept (fun r => do
      let v ← castCell k ((pyGet r.cells (some code)).getD .nanV)
      Except.ok { r with cells := pyInsert r.cells (some code) v }) df.rows with
  | error e => rw [hm] at h; cases h
  | ok rows =>
      rw [hm] at h
      simp only [exBind_ok, exBindm_ok] at h
      cases h
      refine ⟨rfl, ?_⟩
      have h2 := mapExcept_ok_forall2 hm
      refine h2.imp ?_
      intro r r' hr
      cases hv : castCell k ((pyGet r.cells (some code)).getD .nanV) with
      | error e => rw [hv] at hr; cases hr
      | ok v' =>
          rw [hv] at hr
          simp only [exBind_ok, exBindm_ok] at hr
          cases hr
          exact ⟨rfl, v', rfl, rfl⟩

theorem forall2_trans {α : Type} {P Q R : α → α → Prop}
    (hc : ∀ a b c, P a b → Q b c → R a c) :
    ∀ {l1 l2 l3 : List α}, List.Forall₂ P l1 l2 → List.Forall₂ Q l2 l3 → List.Forall₂ R l1 l3 := by
  intro l1 l2 l3 h12
  induction h12 generalizing l3 with
  | nil =>
      intro h23
      cases h23
      exact List.Forall₂.nil
  | cons hab h ih =>
      intro h23
      cases h23 with
      | cons hbc h' => exact List.Forall₂.cons (hc _ _ _ hab hbc) (ih h')

theorem forall2_mem_right {α β : Type} {R : α → β → Prop} :
    ∀ {l : List α} {l' : List β}, List.Forall₂ R l l' → ∀ b ∈ l', ∃ a ∈ l, R a b := by
  intro l l' h
  induction h with
  | nil => intro b hb; cases hb
  | cons hab h ih =>
      intro b hb
      rcases List.mem_cons.mp hb with hb | hb
      · exact ⟨_, List.mem_cons_self _ _, hb ▸ hab⟩
      · obtain ⟨a, ha, hr⟩ := ih b hb
        exact ⟨a, List.mem_cons_of_mem _ ha, hr⟩

theorem coerceCodes_ok {k : CastKind} :
    ∀ {codes : List String} {df df' : WDf}, coerceCodes k df codes = .ok df' →
    df'.cols = df.cols ∧
    List.Forall₂ (coercedRowRel codes) df.rows df'.rows ∧
    (codes.Nodup → ∀ c ∈ codes, df.cols.contains (some c) = true →
       ∀ r' ∈ df'.rows, cellTyped k ((pyGet r'.cells (some c)).getD .nanV)) := by
  intro codes
  induction codes with
  | nil =>
      intro df df' h
      cases h
      refine ⟨rfl, ?_, ?_⟩
      · exact List.forall₂_same.mpr (fun x _ => ⟨rfl, fun _ _ => rfl, fun _ h => h, id⟩)
      · intro _ c hc
        cases hc
  | cons code rest ih =>
      intro df df' h
      simp only [coerceCodes] at h
      by_cases hcont : df.cols.contains (some code) = true
      · rw [if_pos hcont] at h
        cases hcc : castColumn k code df with
        | error e => rw [hcc] at h; cases h
        | ok df1 =>
            rw [hcc] at h
            simp only [exBind_ok, exBindm_ok] at h
            obtain ⟨hcols1, hrows1⟩ := castColumn_ok hcc
            obtain ⟨hcols2, hrows2, htyped2⟩ := ih h
            refine ⟨hcols2.trans hcols1, ?_, ?_⟩
            · refine forall2_trans ?_ hrows1 hrows2
              intro a b c hab hbc
              obtain ⟨hidx1, v', hv', hcells1⟩ := hab
              obtain ⟨hidx2, hunch2, hnan2, hsent2⟩ := hbc
              refine ⟨hidx2.trans hidx1, ?_, ?_, ?_⟩
              · intro k0 hk0
                have hne : k0 ≠ some code := hk0 code (List.mem_cons_self _ _)
                rw [hunch2 k0 (fun c hc => hk0 c (List.mem_cons_of_mem _ hc))]
                rw [hcells1, pyGet_pyInsert_ne _ _ _ _ hne]
              · intro k0 hk0
                apply hnan2
                by_cases hke : k0 = some code
                · subst hke
                  rw [hk0] at hv'
                  simp only [Option.getD_some] at hv'
                  have := castCell_nanV hv'
                  subst this
                  rw [hcells1, pyGet_pyInsert_self]
                · rw [hcells1, pyGet_pyInsert_ne _ _ _ _ hke]
                  exact hk0
              · intro hs
                apply hsent2
                rw [hcells1]
                exact valsNoSentinel_insert hs (castCell_not_strV hv' _)
            · intro hnd c hc hcontc r'' hr''
              rcases List.mem_cons.mp hc with hc | hc
              · subst hc
                have hnotin : c ∉ rest := (List.nodup_cons.mp hnd).1
                obtain ⟨r1, hr1, hrel⟩ := forall2_mem_right hrows2 r'' hr''
                obtain ⟨_, hunch, _, _⟩ := hrel
                have hsame : pyGet r''.cells (some c) = pyGet r1.cells (some c) :=
                  hunch (some c) (fun c' hc' heq => hnotin ((Option.some_injective _ heq) ▸ hc'))
                rw [hsame]
                obtain ⟨r0, hr0, hrel1⟩ := forall2_mem_right hrows1 r1 hr1
                obtain ⟨_, v', hv', hcells1⟩ := hrel1
                rw [hcells1, pyGet_pyInsert_self]
                simp only [Option.getD_some]
                exact castCell_typed hv'
              · exact htyped2 (List.nodup_cons.mp hnd).2 c hc (hcols1 ▸ hcontc) r'' hr''
      · rw [if_neg hcont] at h
        simp only [exBind_ok, exBindm_ok] at h
        obtain ⟨hcols2, hrows2, htyped2⟩ := ih h
        refine ⟨hcols2, ?_, ?_⟩
        · refine hrows2.imp ?_
          intro a b hab
          obtain ⟨hidx, hunch, hnan, hsent⟩ := hab
          exact ⟨hidx, fun k0 hk0 => hunch k0 (fun c hc => hk0 c (List.mem_cons_of_mem _ hc)),
            hnan, hsent⟩
        · intro hnd c hc hcontc r'' hr''
          rcases List.mem_cons.mp hc with hc | hc
          · subst hc
            exact absurd hcontc hcont
          · exact htyped2 (List.nodup_cons.mp hnd).2 c hc hcontc r'' hr''

theorem coerceTypes_ok_weather {df df' : WDf}
    (h : coerceTypes df WEATHER_ELEMENT_TYPES = .ok df') :
    df'.cols = df.cols ∧
    List.Forall₂ (coercedRowRel (floatElementCodes ++ intElementCodes)) df.rows df'.rows ∧
    (∀ c ∈ floatElementCodes, df.cols.contains (some c) = true →
      ∀ r' ∈ df'.rows, cellTyped .floatK ((pyGet r'.cells (some c)).getD .nanV)) ∧
    (∀ c ∈ intElementCodes, df.cols.contains (some c) = true →
      ∀ r' ∈ df'.rows, cellTyped .intK ((pyGet r'.cells (some c)).getD .nanV)) := by
  simp only [coerceTypes, WEATHER_ELEMENT_TYPES] at h
  cases h1 : coerceCodes .floatK df floatElementCodes with
  | error e => rw [h1] at h; cases h
  | ok df1 =>
      rw [h1] at h
      simp only [exBind_ok, exBindm_ok] at h
      cases h2 : coerceCodes .intK df1 intElementCodes with
      | error e => rw [h2] at h; cases h
      | ok df2 =>
          rw [h2] at h
          simp only [exBind_ok, exBindm_ok, coerceTypes] at h
          cases h
          obtain ⟨hc1, hr1, ht1⟩ := coerceCodes_ok h1
          obtain ⟨hc2, hr2, ht2⟩ := coerceCodes_ok h2
          have hdisj : ∀ c ∈ floatElementCodes, c ∉ intElementCodes := by decide
          refine ⟨hc2.trans hc1, ?_, ?_, ?_⟩
          · refine forall2_trans ?_ hr1 hr2
            intro a b c hab hbc
            obtain ⟨hidx1, hunch1, hnan1, hsent1⟩ := hab
            obtain ⟨hidx2, hunch2, hnan2, hsent2⟩ := hbc
            refine ⟨hidx2.trans hidx1, ?_, fun k0 hk0 => hnan2 k0 (hnan1 k0 hk0),
              fun hs => hsent2 (hsent1 hs)⟩
            intro k0 hk0
            rw [hunch2 k0 (fun c hc => hk0 c (List.mem_append_right _ hc))]
            exact hunch1 k0 (fun c hc => hk0 c (List.mem_append_left _ hc))
          · intro c hc hcont r'' hr''
            have hnotI : c ∉ intElementCodes := hdisj c hc
            obtain ⟨r1, hr1m, hrel⟩ := forall2_mem_right hr2 r'' hr''
            obtain ⟨_, hunch, _, _⟩ := hrel
            have hsame : pyGet r''.cells (some c) = pyGet r1.cells (some c) :=
              hunch (some c) (fun c' hc' heq => hnotI ((Option.some_injective _ heq) ▸ hc'))
            rw [hsame]
            exact ht1 (by decide) c hc hcont r1 hr1m
          · intro c hc hcont r'' hr''
            exact ht2 (by decide) c hc (by rw [hc1]; exact hcont) r'' hr''

theorem foldl_append_flatten {α : Type} :
    ∀ (rest : List (List α)) (l0 : List α),
      rest.foldl (fun a b => a ++ b) l0 = l0 ++ rest.flatten := by
  intro rest
  induction rest with
  | nil => intro l0; simp
  | cons r rs ih =>
      intro l0
      simp only [List.foldl_cons, ih, List.flatten_cons, List.append_assoc]

/-- The long-format branch of `xml_observations_to_df` returns exactly the
concatenation of the per-fragment record lists, with no further processing. -/
theorem xml_observations_to_df_long_eq (obs : List XmlElem) (tz : PyTz) (rows : List LongRow)
    (h : xml_observations_to_df obs tz true = .ok (.long rows)) :
    ∃ ods, mapExcept (fun o => xml_obs_to_dict o tz true) obs = .ok ods ∧
      rows = (ods.map getLongRows).flatten := by
  unfold xml_observations_to_df at h
  cases hm : mapExcept (fun o => xml_obs_to_dict o tz true) obs with
  | error e => rw [hm] at h; cases h
  | ok dicts =>
      rw [hm] at h
      simp only [exBind_ok, exBindm_ok, if_true] at h
      refine ⟨dicts, rfl, ?_⟩
      cases hmap : dicts.map getLongRows with
      | nil => rw [hmap] at h; cases h
      | cons l0 rest =>
          rw [hmap] at h
          cases h
          rw [foldl_append_flatten]
          rw [← List.flatten_cons]

/-- C9: on every non-empty wide frame, Type Coercion casts every column named
by a known floating-point code to floating-point values with nulls remaining
null, casts every column named by a known integer code to integers, and leaves
every other column's cells (and every row's index) untouched; long-form output
is never coerced: it is exactly the concatenation of the parser's records. -/
theorem c9_type_coercion :
    (∀ df df', coerceTypes df WEATHER_ELEMENT_TYPES = .ok df' →
      df'.cols = df.cols ∧
      (∀ c ∈ floatElementCodes, df.cols.contains (some c) = true →
        ∀ r' ∈ df'.rows, (pyGet r'.cells (some c)).getD .nanV = .nanV ∨
          ∃ q, (pyGet r'.cells (some c)).getD .nanV = .floatV q) ∧
      (∀ c ∈ intElementCodes, df.cols.contains (some c) = true →
        ∀ r' ∈ df'.rows, ∃ n, (pyGet r'.cells (some c)).getD .nanV = .intV n) ∧
      List.Forall₂ (fun r r' =>
        (∀ k0, (∀ c, c ∈ floatElementCodes ++ intElementCodes → k0 ≠ some c) →
          pyGet r'.cells k0 = pyGet r.cells k0) ∧
        (∀ k0, pyGet r.cells k0 = some .nanV → pyGet r'.cells k0 = some .nanV))
        df.rows df'.rows) ∧
    (∀ obs tz rows, xml_observations_to_df obs tz true = .ok (.long rows) →
      ∃ ods, mapExcept (fun o => xml_obs_to_dict o tz true) obs = .ok ods ∧
        rows = (ods.map getLongRows).flatten) := by
  constructor
  · intro df df' h
    obtain ⟨hcols, hrows, hfloat, hint⟩ := coerceTypes_ok_weather h
    refine ⟨hcols, hfloat, ?_, ?_⟩
    · intro c hc hcont r' hr'
      exact hint c hc hcont r' hr'
    · refine hrows.imp ?_
      intro a b hab
      obtain ⟨_, hunch, hnan, _⟩ := hab
      exact ⟨fun k0 hk0 => hunch k0 (fun c hc => hk0 c hc), hnan⟩
  · exact xml_observations_to_df_long_eq

/-- Witness for C9 on a concrete three-column frame (one known float column,
one known int column, one unknown column). -/
theorem c9_type_coercion_witness :
    c9dfCoerced.cols = c9df.cols ∧
    (∀ c ∈ floatElementCodes, c9df.cols.contains (some c) = true →
      ∀ r' ∈ c9dfCoerced.rows, (pyGet r'.cells (some c)).getD .nanV = .nanV ∨
        ∃ q, (pyGet r'.cells (some c)).getD .nanV = .floatV q) ∧
    (∀ c ∈ intElementCodes, c9df.cols.contains (some c) = true →
      ∀ r' ∈ c9dfCoerced.rows, ∃ n, (pyGet r'.cells (some c)).getD .nanV = .intV n) := by
  have h := c9_type_coercion.1 c9df c9dfCoerced (by decide)
  exact ⟨h.1, h.2.1, h.2.2.1⟩

/-! ## Sentinel lemmas for the parser -/

theorem elValue_ok_not_sentinel {el : XmlElem} {v : WVal} (h : elValue el = .ok v) :
    v ≠ .strV "-99999" := by
  unfold elValue at h
  split at h
  · cases h
  · rename_i c hc
    split at h
    · cases h
      simp
    · rename_i hne
      split at h
      · rename_i s hs
        cases h
        intro hv
        cases hv
        exact hne hs
      · cases h
        simp

theorem elValue_sentinel_nan {el : XmlElem} {c : XmlElem}
    (hc : el.children.head? = some c) (ht : c.text = some "-99999") :
    elValue el = .ok .nanV := by
  simp only [elValue, hc, ht, if_pos]

theorem xml_obs_to_dict_eval_wide {frag : XmlElem} {tz : PyTz} {ds : String} {d0 : PyDateTime}
    (hf : frag.get "from" = some ds) (hp : strptimeMet ds = some d0) :
    xml_obs_to_dict frag tz false =
      Except.map ObsDict.wideD (processLocs (decide (1 < frag.children.length))
        (if tz.isUTC then d0 else tz.localize d0) [] frag.children) := by
  simp only [xml_obs_to_dict, hf, hp, Bool.false_eq_true, if_false]

theorem xml_obs_to_dict_eval_long {frag : XmlElem} {tz : PyTz} {ds : String} {d0 : PyDateTime}
    (hf : frag.get "from" = some ds) (hp : strptimeMet ds = some d0) :
    xml_obs_to_dict frag tz true =
      Except.map ObsDict.longD (longLocs
        (if tz.isUTC then d0 else tz.localize d0) none frag.children) := by
  simp only [xml_obs_to_dict, hf, hp, if_true]

theorem processEls_vals {m : Bool} {loc : XmlElem} :
    ∀ {els : List XmlElem} {d d' : PyDict}, processEls m loc d els = .ok d' →
      valsNoSentinel d → valsNoSentinel d' := by
  intro els
  induction els with
  | nil =>
      intro d d' h hd
      cases h
      exact hd
  | cons el rest ih =>
      intro d d' h hd
      simp only [processEls] at h
      cases hk : wideKey m loc el with
      | error e => rw [hk] at h; cases h
      | ok key =>
          rw [hk] at h
          simp only [exBind_ok, exBindm_ok] at h
          cases hv : elValue el with
          | error e => rw [hv] at h; cases h
          | ok v =>
              rw [hv] at h
              simp only [exBind_ok, exBindm_ok] at h
              exact ih h (valsNoSentinel_insert hd (elValue_ok_not_sentinel hv))

theorem processLocs_vals {m : Bool} {date : PyDateTime} :
    ∀ {locs : List XmlElem} {d d' : PyDict}, processLocs m date d locs = .ok d' →
      valsNoSentinel d → valsNoSentinel d' := by
  intro locs
  induction locs with
  | nil =>
      intro d d' h hd
      cases h
      exact hd
  | cons loc rest ih =>
      intro d d' h hd
      simp only [processLocs] at h
      cases he : processEls m loc (pyInsert d (some "Date") (.dval date)) loc.children with
      | error e => rw [he] at h; cases h
      | ok d2 =>
          rw [he] at h
          simp only [exBind_ok, exBindm_ok] at h
          exact ih h (processEls_vals he (valsNoSentinel_insert hd (by simp)))

theorem xml_obs_to_dict_wide_vals {frag : XmlElem} {tz : PyTz} {rec : PyDict}
    (h : xml_obs_to_dict frag tz false = .ok (.wideD rec)) : valsNoSentinel rec := by
  unfold xml_obs_to_dict at h
  split at h
  · cases h
  · rename_i ds hf
    split at h
    · cases h
    · rename_i d0 hp
      simp only [Bool.false_eq_true, if_false] at h
      cases hl : processLocs (decide (1 < frag.children.length))
          (if tz.isUTC then d0 else tz.localize d0) [] frag.children with
      | error e => rw [hl] at h; cases h
      | ok rec2 =>
          rw [hl] at h
          simp only [exMap_ok, Except.ok.injEq, ObsDict.wideD.injEq] at h
          cases h
          exact processLocs_vals hl (fun p hp2 => absurd hp2 (List.not_mem_nil p))

theorem longEls_no_sentinel {date : PyDateTime} {loc : XmlElem} :
    ∀ {els : List XmlElem} {acc rows : List LongRow}, longEls date loc acc els = .ok rows →
      (∀ r ∈ acc, r.value ≠ some "-99999") → ∀ r ∈ rows, r.value ≠ some "-99999" := by
  intro els
  induction els with
  | nil =>
      intro acc rows h hacc
      cases h
      exact hacc
  | cons el rest ih =>
      intro acc rows h hacc
      simp only [longEls] at h
      split at h
      · cases h
      · rename_i c hc
        split at h
        · rename_i hne
          refine ih h ?_
          intro r hr
          rcases List.mem_append.mp hr with hr | hr
          · exact hacc r hr
          · have : r = ⟨date, loc.get "id", el.get "id", c.text⟩ := List.mem_singleton.mp hr
            subst this
            exact hne
        · exact ih h hacc

theorem longLocs_no_sentinel {date : PyDateTime} :
    ∀ {locs : List XmlElem} {res res' : Option (List LongRow)},
      longLocs date res locs = .ok res' →
      (∀ rows, res = some rows → ∀ r ∈ rows, r.value ≠ some "-99999") →
      ∀ rows, res' = some rows → ∀ r ∈ rows, r.value ≠ some "-99999" := by
  intro locs
  induction locs with
  | nil =>
      intro res res' h hres
      cases h
      exact hres
  | cons loc rest ih =>
      intro res res' h hres
      simp only [longLocs] at h
      cases he : longEls date loc [] loc.children with
      | error e => rw [he] at h; cases h
      | ok rows1 =>
          rw [he] at h
          simp only [exBind_ok, exBindm_ok] at h
          refine ih h ?_
          intro rows hrows
          cases hrows
          exact longEls_no_sentinel he (fun r hr => absurd hr (List.not_mem_nil r))

theorem xml_obs_to_dict_long_vals {frag : XmlElem} {tz : PyTz} {rows : Option (List LongRow)}
    (h : xml_obs_to_dict frag tz true = .ok (.longD rows)) :
    ∀ r ∈ rows.getD [], r.value ≠ some "-99999" := by
  unfold xml_obs_to_dict at h
  split at h
  · cases h
  · rename_i ds hf
    split at h
    · cases h
    · rename_i d0 hp
      simp only [if_true] at h
      cases hl : longLocs (if tz.isUTC then d0 else tz.localize d0) none frag.children with
      | error e => rw [hl] at h; cases h
      | ok res =>
          rw [hl] at h
          simp only [exMap_ok, Except.ok.injEq, ObsDict.longD.injEq] at h
          cases h
          intro r hr
          cases hrows : rows with
          | none =>
              rw [hrows] at hr
              cases hr
          | some rs =>
              rw [hrows] at hr
              exact longLocs_no_sentinel hl (fun rows0 h0 => by cases h0) rs hrows r hr

theorem processEls_append {m : Bool} {loc : XmlElem} :
    ∀ (xs ys : List XmlElem) (d : PyDict),
      processEls m loc d (xs ++ ys) =
        (processEls m loc d xs).bind (fun d1 => processEls m loc d1 ys) := by
  intro xs
  induction xs with
  | nil => intro ys d; rfl
  | cons el rest ih =>
      intro ys d
      simp only [List.cons_append, processEls]
      cases hk : wideKey m loc el with
      | error e => simp
      | ok key =>
          simp only [exBind_ok, exBindm_ok]
          cases hv : elValue el with
          | error e => simp
          | ok v =>
              simp only [exBind_ok, exBindm_ok]
              exact ih ys (pyInsert d key v)

theorem processLocs_append {m : Bool} {date : PyDateTime} :
    ∀ (xs ys : List XmlElem) (d : PyDict),
      processLocs m date d (xs ++ ys) =
        (processLocs m date d xs).bind (fun d1 => processLocs m date d1 ys) := by
  intro xs
  induction xs with
  | nil => intro ys d; rfl
  | cons loc rest ih =>
      intro ys d
      simp only [List.cons_append, processLocs]
      cases he : processEls m loc (pyInsert d (some "Date") (.dval date)) loc.children with
      | error e => simp
      | ok d2 =>
          simp only [exBind_ok, exBindm_ok]
          exact ih ys d2

theorem processEls_frame {m : Bool} {loc : XmlElem} {k0 : Option String} :
    ∀ {els : List XmlElem} {d d' : PyDict}, processEls m loc d els = .ok d' →
      (∀ el ∈ els, elKeyT m loc el ≠ k0) → pyGet d' k0 = pyGet d k0 := by
  intro els
  induction els with
  | nil =>
      intro d d' h _
      cases h
      rfl
  | cons el rest ih =>
      intro d d' h hne
      simp only [processEls] at h
      cases hk : wideKey m loc el with
      | error e => rw [hk] at h; cases h
      | ok key =>
          rw [hk] at h
          simp only [exBind_ok, exBindm_ok] at h
          cases hv : elValue el with
          | error e => rw [hv] at h; cases h
          | ok v =>
              rw [hv] at h
              simp only [exBind_ok, exBindm_ok] at h
              have hkT : elKeyT m loc el = key := by
                unfold elKeyT
                rw [hk]
              have hkey : key ≠ k0 := hkT ▸ hne el (List.mem_cons_self _ _)
              rw [ih h (fun e he => hne e (List.mem_cons_of_mem _ he))]
              exact pyGet_pyInsert_ne _ _ _ _ (fun hh => hkey hh.symm)

theorem processLocs_frame {m : Bool} {date : PyDateTime} {k0 : Option String} :
    ∀ {locs : List XmlElem} {d d' : PyDict}, processLocs m date d locs = .ok d' →
      k0 ≠ some "Date" →
      (∀ loc' ∈ locs, ∀ el ∈ loc'.children, elKeyT m loc' el ≠ k0) →
      pyGet d' k0 = pyGet d k0 := by
  intro locs
  induction locs with
  | nil =>
      intro d d' h _ _
      cases h
      rfl
  | cons loc rest ih =>
      intro d d' h hd hne
      simp only [processLocs] at h
      cases he : processEls m loc (pyInsert d (some "Date") (.dval date)) loc.children with
      | error e => rw [he] at h; cases h
      | ok d2 =>
          rw [he] at h
          simp only [exBind_ok, exBindm_ok] at h
          rw [ih h hd (fun l hl => hne l (List.mem_cons_of_mem _ hl))]
          rw [processEls_frame he (fun el hel => hne loc (List.mem_cons_self _ _) el hel)]
          exact pyGet_pyInsert_ne _ _ _ _ hd

theorem processEls_sentinel_key {m : Bool} {loc el c : XmlElem} {e1 e2 : List XmlElem}
    {d d' : PyDict}
    (h : processEls m loc d (e1 ++ el :: e2) = .ok d')
    (hc : el.children.head? = some c) (ht : c.text = some "-99999")
    (hafter : ∀ el' ∈ e2, elKeyT m loc el' ≠ elKeyT m loc el) :
    pyGet d' (elKeyT m loc el) = some .nanV := by
  rw [processEls_append] at h
  cases h1 : processEls m loc d e1 with
  | error e => rw [h1] at h; cases h
  | ok d1 =>
      rw [h1] at h
      simp only [exBindm_ok] at h
      simp only [processEls] at h
      cases hk : wideKey m loc el with
      | error e => rw [hk] at h; cases h
      | ok key =>
          rw [hk] at h
          simp only [exBind_ok, exBindm_ok] at h
          rw [elValue_sentinel_nan hc ht] at h
          simp only [exBind_ok, exBindm_ok] at h
          have hkT : elKeyT m loc el = key := by
            unfold elKeyT
            rw [hk]
          rw [hkT] at hafter ⊢
          rw [processEls_frame h hafter]
          exact pyGet_pyInsert_self _ _ _

theorem processLocs_sentinel_key {m : Bool} {date : PyDateTime} {l1 l2 : List XmlElem}
    {loc el c : XmlElem} {e1 e2 : List XmlElem} {d d' : PyDict}
    (h : processLocs m date d (l1 ++ loc :: l2) = .ok d')
    (hels : loc.children = e1 ++ el :: e2)
    (hc : el.children.head? = some c) (ht : c.text = some "-99999")
    (hkd : elKeyT m loc el ≠ some "Date")
    (hafter_els : ∀ el' ∈ e2, elKeyT m loc el' ≠ elKeyT m loc el)
    (hafter_locs : ∀ loc' ∈ l2, ∀ el' ∈ loc'.children, elKeyT m loc' el' ≠ elKeyT m loc el) :
    pyGet d' (elKeyT m loc el) = some .nanV := by
  rw [processLocs_append] at h
  cases h1 : processLocs m date d l1 with
  | error e => rw [h1] at h; cases h
  | ok d1 =>
      rw [h1] at h
      simp only [exBindm_ok] at h
      simp only [processLocs] at h
      cases he : processEls m loc (pyInsert d1 (some "Date") (.dval date)) loc.children with
      | error e => rw [he] at h; cases h
      | ok d2 =>
          rw [he] at h
          simp only [exBind_ok, exBindm_ok] at h
          rw [processLocs_frame h hkd hafter_locs]
          rw [hels] at he
          exact processEls_sentinel_key he hc ht hafter_els

theorem fragWideKeysM_split (m : Bool) (l1 l2 : List XmlElem) (loc : XmlElem)
    (e1 e2 : List XmlElem) (el : XmlElem) (hesplit : loc.children = e1 ++ el :: e2) :
    fragWideKeysM m (l1 ++ loc :: l2)
      = ((l1.map (locKeys m)).flatten ++ e1.map (fun e => elKeyT m loc e))
        ++ elKeyT m loc el ::
          (e2.map (fun e => elKeyT m loc e) ++ (l2.map (locKeys m)).flatten) := by
  unfold fragWideKeysM
  rw [List.map_append, List.map_cons, List.flatten_append, List.flatten_cons]
  have hLoc : locKeys m loc = e1.map (fun e => elKeyT m loc e)
      ++ elKeyT m loc el :: e2.map (fun e => elKeyT m loc e) := by
    unfold locKeys
    rw [hesplit, List.map_append, List.map_cons]
  rw [hLoc]
  simp [List.append_assoc]

theorem xml_obs_to_dict_sentinel_nan {frag : XmlElem} {tz : PyTz} {rec : PyDict}
    (h : xml_obs_to_dict frag tz false = .ok (.wideD rec))
    (hnd : (some "Date" :: fragWideKeys frag).Nodup)
    {loc el c : XmlElem} (hloc : loc ∈ frag.children) (hel : el ∈ loc.children)
    (hc : el.children.head? = some c) (ht : c.text = some "-99999") :
    pyGet rec (elKeyT (decide (1 < frag.children.length)) loc el) = some .nanV := by
  obtain ⟨l1, l2, hsplit⟩ := List.append_of_mem hloc
  obtain ⟨e1, e2, hesplit⟩ := List.append_of_mem hel
  have hfrag : fragWideKeys frag
      = fragWideKeysM (decide (1 < frag.children.length)) (l1 ++ loc :: l2) := by
    unfold fragWideKeys
    exact congrArg _ hsplit
  have hkeys := fragWideKeysM_split (decide (1 < frag.children.length)) l1 l2 loc e1 e2 el hesplit
  have hDateNotIn : some "Date" ∉ fragWideKeys frag := (List.nodup_cons.mp hnd).1
  have hK : (fragWideKeys frag).Nodup := (List.nodup_cons.mp hnd).2
  have hkeymem : elKeyT (decide (1 < frag.children.length)) loc el ∈ fragWideKeys frag := by
    rw [hfrag, hkeys]
    exact List.mem_append_right _ (List.mem_cons_self _ _)
  have hkd : elKeyT (decide (1 < frag.children.length)) loc el ≠ some "Date" :=
    fun he => hDateNotIn (he ▸ hkeymem)
  have hsub : (elKeyT (decide (1 < frag.children.length)) loc el ::
      (e2.map (fun e => elKeyT (decide (1 < frag.children.length)) loc e)
        ++ (l2.map (locKeys (decide (1 < frag.children.length)))).flatten)).Nodup := by
    have hK2 := hK
    rw [hfrag, hkeys] at hK2
    exact List.Nodup.sublist (List.sublist_append_right _ _) hK2
  have hnotW := (List.nodup_cons.mp hsub).1
  have hafter_els : ∀ el' ∈ e2, elKeyT (decide (1 < frag.children.length)) loc el'
      ≠ elKeyT (decide (1 < frag.children.length)) loc el := by
    intro el' he' heq
    exact hnotW (List.mem_append_left _ (heq ▸ List.mem_map_of_mem _ he'))
  have hafter_locs : ∀ loc' ∈ l2, ∀ el' ∈ loc'.children,
      elKeyT (decide (1 < frag.children.length)) loc' el'
        ≠ elKeyT (decide (1 < frag.children.length)) loc el := by
    intro loc' hl' el' hel' heq
    refine hnotW (List.mem_append_right _ ?_)
    refine List.mem_flatten.mpr ⟨locKeys (decide (1 < frag.children.length)) loc', ?_, ?_⟩
    · exact List.mem_map_of_mem _ hl'
    · exact heq ▸ List.mem_map_of_mem _ hel'
  unfold xml_obs_to_dict at h
  split at h
  · cases h
  · rename_i ds hf
    split at h
    · cases h
    · rename_i d0 hp
      simp only [Bool.false_eq_true, if_false] at h
      cases hl : processLocs (decide (1 < frag.children.length))
          (if tz.isUTC then d0 else tz.localize d0) [] frag.children with
      | error e => rw [hl] at h; cases h
      | ok rec2 =>
          rw [hl] at h
          simp only [exMap_ok, Except.ok.injEq, ObsDict.wideD.injEq] at h
          cases h
          have hl2 : processLocs (decide (1 < frag.children.length))
              (if tz.isUTC then d0 else tz.localize d0) [] (l1 ++ loc :: l2) =
                Except.ok rec := by
            rw [← hsplit]
            exact hl
          exact processLocs_sentinel_key hl2 hesplit hc ht hkd hafter_els hafter_locs

theorem buildWideDf_row_vals {d : PyDict} (hd : valsNoSentinel d) (cols : List (Option String)) :
    valsNoSentinel (cols.map (fun c => (c, (pyGet d c).getD .nanV))) := by
  intro p hp
  obtain ⟨c, _, hpc⟩ := List.mem_map.mp hp
  subst hpc
  cases hg : pyGet d c with
  | none => simp
  | some v =>
      simp only [Option.getD_some]
      exact hd (c, v) (pyGet_mem d c v hg)

theorem xml_observations_to_df_wide_vals {obs : List XmlElem} {tz : PyTz} {w : WDf}
    (h : xml_observations_to_df obs tz false = .ok (.wide w)) :
    ∀ r ∈ w.rows, valsNoSentinel r.cells := by
  unfold xml_observations_to_df at h
  cases hm : mapExcept (fun o => xml_obs_to_dict o tz false) obs with
  | error e => rw [hm] at h; cases h
  | ok dicts =>
      rw [hm] at h
      simp only [exBind_ok, exBindm_ok, Bool.false_eq_true, if_false] at h
      have hdict : ∀ d ∈ dicts.map getWideDict, valsNoSentinel d := by
        intro d hd
        obtain ⟨od, hod, hodw⟩ := List.mem_map.mp hd
        obtain ⟨o, _, hoo⟩ := mapExcept_ok_mem hm od hod
        cases od with
        | wideD dd =>
            cases hodw
            exact xml_obs_to_dict_wide_vals hoo
        | longD _ =>
            cases hodw
            intro p hp
            cases hp
      have hbuilt : ∀ r ∈ (buildWideDf (dicts.map getWideDict)).rows, valsNoSentinel r.cells := by
        intro r hr
        simp only [buildWideDf] at hr
        obtain ⟨d, hd, hrd⟩ := List.mem_map.mp hr
        subst hrd
        exact buildWideDf_row_vals (hdict d hd) _
      by_cases he : (buildWideDf (dicts.map getWideDict)).isEmptyDf = true
      · rw [if_pos he] at h
        cases h
        exact hbuilt
      · rw [if_neg he] at h
        cases hsi : set_index_Date (buildWideDf (dicts.map getWideDict)) with
        | error e => rw [hsi] at h; cases h
        | ok df1 =>
            rw [hsi] at h
            simp only [exBind_ok, exBindm_ok] at h
            have hdf1 : ∀ r ∈ df1.rows, valsNoSentinel r.cells := by
              unfold set_index_Date at hsi
              split at hsi
              · cases hsi
                intro r hr
                simp only [List.mem_map] at hr
                obtain ⟨r0, hr0, hrr⟩ := hr
                subst hrr
                intro p hp
                exact hbuilt r0 hr0 p (List.mem_of_mem_filter hp)
              · cases hsi
            cases hct : coerceTypes df1 WEATHER_ELEMENT_TYPES with
            | error e => rw [hct] at h; cases h
            | ok df2 =>
                rw [hct] at h
                simp only [exBind_ok, exBindm_ok, Except.ok.injEq, Df.wide.injEq] at h
                cases h
                obtain ⟨_, hrows, _, _⟩ := coerceTypes_ok_weather hct
                intro r'' hr''
                obtain ⟨r', hr', hrel⟩ := forall2_mem_right hrows r'' hr''
                obtain ⟨_, _, _, hsent⟩ := hrel
                exact hsent (hdf1 r' hr')

/-- C2: a variable whose raw value equals the sentinel `-99999` is stored as
null (`np.nan`) in the wide-form record and never appears as a raw sentinel
value anywhere in the final wide table; in long form a sentinel-valued
variable produces no row at all, at the record level and in the assembled
long table. The stored-as-null clause assumes the fragment's dict keys are
distinct (otherwise a later same-key write overwrites, the overwrite behaviour
the spec itself documents). -/
theorem c2_sentinel_null (frag : XmlElem) (tz : PyTz) :
    (∀ rows, xml_obs_to_dict frag tz true = .ok (.longD rows) →
      ∀ r ∈ rows.getD [], r.value ≠ some "-99999") ∧
    (∀ rec, xml_obs_to_dict frag tz false = .ok (.wideD rec) →
      (∀ k, pyGet rec k ≠ some (.strV "-99999")) ∧
      ((some "Date" :: fragWideKeys frag).Nodup →
        ∀ loc ∈ frag.children, ∀ el ∈ loc.children, ∀ c, el.children.head? = some c →
          c.text = some "-99999" →
          pyGet rec (elKeyT (decide (1 < frag.children.length)) loc el) = some .nanV)) ∧
    (∀ obs w, xml_observations_to_df obs tz false = .ok (.wide w) →
      ∀ r ∈ w.rows, ∀ k, pyGet r.cells k ≠ some (.strV "-99999")) ∧
    (∀ obs rows, xml_observations_to_df obs tz true = .ok (.long rows) →
      ∀ r ∈ rows, r.value ≠ some "-99999") := by
  refine ⟨?_, ?_, ?_, ?_⟩
  · intro rows h
    exact xml_obs_to_dict_long_vals h
  · intro rec h
    refine ⟨valsNoSentinel_pyGet (xml_obs_to_dict_wide_vals h), ?_⟩
    intro hnd loc hloc el hel c hc ht
    exact xml_obs_to_dict_sentinel_nan h hnd hloc hel hc ht
  · intro obs w h r hr k
    exact valsNoSentinel_pyGet (xml_observations_to_df_wide_vals h r hr) k
  · intro obs rows h r hr
    obtain ⟨ods, hods, hrows⟩ := xml_observations_to_df_long_eq obs tz rows h
    subst hrows
    obtain ⟨l, hl, hrl⟩ := List.mem_flatten.mp hr
    obtain ⟨od, hod, hodl⟩ := List.mem_map.mp hl
    subst hodl
    obtain ⟨o, _, ho⟩ := mapExcept_ok_mem hods od hod
    cases od with
    | longD rs => exact xml_obs_to_dict_long_vals ho r hrl
    | wideD _ => cases hrl

/-- Witness for C2 at `sampleFragment`: the sentinel-valued `RR_12` element is
stored as null in the wide record, and in long form it yields no row (only the
two non-sentinel records exist, neither valued `"-99999"`). -/
theorem c2_sentinel_null_witness :
    pyGet [(some "Date", .dval ⟨2015, 11, 10, 6, 0, 0, 0⟩), (some "St.no", .strV "18700"),
           (some "TA", .strV "7.5"), (some "RR_12", .nanV)]
      (elKeyT (decide (1 < sampleFragment.children.length)) sampleLoc sampleRr12El) =
        some .nanV ∧
    (∀ r ∈ ((some [⟨⟨2015, 11, 10, 6, 0, 0, 0⟩, some "18700", some "St.no", some "18700"⟩,
                    ⟨⟨2015, 11, 10, 6, 0, 0, 0⟩, some "18700", some "TA", some "7.5"⟩] :
              Option (List LongRow)).getD []),
       r.value ≠ some "-99999") := by
  constructor
  · exact ((c2_sentinel_null sampleFragment pytzUTC).2.1 _ (by decide)).2 (by decide)
      sampleLoc (List.mem_cons_self _ _) sampleRr12El
      (List.mem_cons_of_mem _ (List.mem_cons_of_mem _ (List.mem_cons_self _ _)))
      sampleRr12Val rfl rfl
  · exact (c2_sentinel_null sampleFragment pytzUTC).1 _ (by decide)
